import Mathlib

/-!
Verification development for the structure-definition compiler core:
the symbol resolver (`FSHTank.fish` / `fishForMetadata`), the
structure-definition exporter (`exportStructDef`, `setMetadata`,
`setRules`, `preprocessStructureDefinition`,
`handleExtensionContainsRule`), and their supporting data model.

The TypeScript sources are embedded shallowly: classes become
structures, tagged `instanceof` dispatch becomes inductive matching,
exceptions become `Except`, the mutable output package and the
diagnostic log become an explicit state record, and the mutual
recursion between the exporter and the resolver is made total with an
explicit recursion-depth (fuel) argument.  Collaborator code that is
not part of the sources here (the FHIR element-tree library, the
master fisher internals, path utilities) is modelled from the
specification; each such definition says so in its doc comment.
-/

namespace Sushi

/-! ## String utilities

Character-list implementations are used instead of the corresponding
`String` library functions so that every definition reduces inside the
kernel (the library versions use well-founded recursion). -/

/-- Boolean prefix test on strings; mirrors JavaScript `String.startsWith`. -/
def strStartsWith (s pre : String) : Bool :=
  pre.data.isPrefixOf s.data

/-- Cons a character onto the first group of a grouped character list. -/
def consHead (c : Char) : List (List Char) → List (List Char)
  | [] => [[c]]
  | h :: t => (c :: h) :: t

/-- Split a character list on a separator character; mirrors JavaScript
`String.split` (the empty string yields one empty group). -/
def splitChars (sep : Char) : List Char → List (List Char)
  | [] => [[]]
  | c :: cs =>
    if c == sep then [] :: splitChars sep cs
    else consHead c (splitChars sep cs)

/-- Split a string on `|`; used for `item.split('|')` in the resolver. -/
def splitOnPipe (s : String) : List String :=
  (splitChars '|' s.data).map (fun g => String.mk g)

/-- Split a path on periods that are not inside square brackets, tracking
bracket depth; embeds `splitOnPathPeriods` (the path utility splits on
`/\.(?![^\[]*\])/`, i.e. periods outside bracketed slice annotations). -/
def splitPathChars : List Char → Nat → List (List Char)
  | [], _ => [[]]
  | c :: cs, d =>
    if c == '.' && d == 0 then [] :: splitPathChars cs 0
    else
      let d' := if c == '[' then d + 1 else if c == ']' then d - 1 else d
      consHead c (splitPathChars cs d')

/-- Path splitter over strings (see `splitPathChars`). -/
def splitOnPathPeriods (p : String) : List String :=
  (splitPathChars p.data 0).map (fun g => String.mk g)

/-- Join strings with a period separator (mirrors `Array.join('.')`). -/
def joinDot : List String → String
  | [] => ""
  | [s] => s
  | s :: rest => s ++ "." ++ joinDot rest

/-- Join strings with `|` (mirrors `Array.join('|')`). -/
def joinPipe : List String → String
  | [] => ""
  | [s] => s
  | s :: rest => s ++ "|" ++ joinPipe rest

/-- Decimal digit rendering of a natural number (auxiliary). -/
def natDigitsAux : Nat → Nat → List Char
  | 0, _ => []
  | _ + 1, 0 => []
  | fuel + 1, n =>
    natDigitsAux fuel (n / 10) ++ [Char.ofNat (48 + n % 10)]

/-- Decimal string of a natural number; mirrors JavaScript number-to-string
for the small indices that occur in caret paths. -/
def natToStr (n : Nat) : String :=
  if n == 0 then "0" else String.mk (natDigitsAux (n + 1) n)

/-- Parse a non-empty all-digit character list into a natural number. -/
def parseDigits : List Char → Option Nat
  | [] => none
  | cs =>
    if cs.all (fun c => c.isDigit) then
      some (cs.foldl (fun acc c => acc * 10 + (c.toNat - 48)) 0)
    else none

/-- Strip a prefix from a character list, or fail. -/
def stripPre : List Char → List Char → Option (List Char)
  | cs, [] => some cs
  | [], _ :: _ => none
  | c :: cs, p :: ps => if c == p then stripPre cs ps else none

/-- Strip a suffix from a character list, or fail. -/
def stripSuf (cs suf : List Char) : Option (List Char) :=
  (stripPre cs.reverse suf.reverse).map List.reverse

/-- Modelled from the spec: the formal-identifier syntax required of ids
(`idRegex` in the FHIR type library, which is not among the sources):
1 to 64 characters, each a letter, digit, `-`, or `.`. -/
def idRegexTest (s : String) : Bool :=
  decide (1 ≤ s.data.length) && decide (s.data.length ≤ 64) &&
    s.data.all (fun c => c.isAlphanum || c == '-' || c == '.')

/-- Association-list lookup keyed by strings (used where the source uses
plain object/`Map` lookups). -/
def lookupAssoc {α : Type} (l : List (String × α)) (k : String) : Option α :=
  (l.find? (fun p => p.1 == k)).map (fun p => p.2)

/-! ## FSH data model

The entity model produced by the importer.  Only the fields that the
embedded code reads are carried. -/

deriving instance DecidableEq for Except

/-- Values carried by assignment and caret rules: strings, codes
(`FshCode`), booleans, and integers. -/
inductive FshValue where
  | str (s : String)
  | code (system : Option String) (c : String)
  | boolean (b : Bool)
  | integer (i : Int)
deriving Repr, DecidableEq

/-- JavaScript `toString` rendering of a rule value. -/
def fshValueToString : FshValue → String
  | .str s => s
  | .code _ c => c
  | .boolean b => if b then "true" else "false"
  | .integer i => if i < 0 then "-" ++ natToStr i.natAbs else natToStr i.natAbs

/-- One item of a `ContainsRule` (a slice name with an optional type). -/
structure ContainsItem where
  name : String
  type : Option String := none
deriving Repr, DecidableEq

/-- The typed rule variants interpreted by the exporter (the closed set of
rule classes used by the embedded code). -/
inductive FshRule where
  | assignment (path : String) (value : FshValue) (isInstance : Bool) (exactly : Bool)
  | card (path : String) (min : Nat) (max : String)
  | caretValue (path : String) (caretPath : String) (value : FshValue) (isInstance : Bool)
  | binding (path : String) (valueSet : String) (strength : String)
  | only (path : String) (types : List String)
  | containsRule (path : String) (items : List ContainsItem)
  | obeys (path : String) (invariant : String)
  | flag (path : String) (mustSupport summary modifier trialUse normative draft : Option Bool)
  | addElement (path : String) (min : Nat) (max : String) (types : List String)
  | insertRule (ruleSet : String)
deriving Repr, DecidableEq

/-- The structural path a rule addresses (`rule.path`). -/
def FshRule.path : FshRule → String
  | .assignment p _ _ _ => p
  | .card p _ _ => p
  | .caretValue p _ _ _ => p
  | .binding p _ _ => p
  | .only p _ => p
  | .containsRule p _ => p
  | .obeys p _ => p
  | .flag p _ _ _ _ _ _ => p
  | .addElement p _ _ _ => p
  | .insertRule _ => ""

/-- Kind tag of a declared structure entity (Profile, Extension, Logical,
or Resource class in the source). -/
inductive SDType where
  | profile
  | extension
  | logical
  | resource
deriving Repr, DecidableEq

/-- A declared (not yet compiled) structure entity: name, id, symbolic
parent (empty string when unspecified), optional title/description, and
its ordered rule list.  `characteristics` mirrors the logical-model
characteristics list. -/
structure FshStructure where
  sdType : SDType := .profile
  name : String := ""
  id : String := ""
  parent : String := ""
  title : Option String := none
  description : Option String := none
  rules : List FshRule := []
  characteristics : List String := []
deriving Repr, DecidableEq

/-- A declared Instance: `instanceOf`, `usage`, and assignment rules. -/
structure FshInstance where
  name : String := ""
  id : String := ""
  instanceOf : String := ""
  usage : String := ""
  rules : List FshRule := []
deriving Repr, DecidableEq

/-- A declared value set. -/
structure FshValueSet where
  name : String := ""
  id : String := ""
  rules : List FshRule := []
deriving Repr, DecidableEq

/-- A declared code system. -/
structure FshCodeSystem where
  name : String := ""
  id : String := ""
  rules : List FshRule := []
deriving Repr, DecidableEq

/-- A declared invariant: identifier, human description, optional
expression, and severity code. -/
structure FshInvariant where
  name : String := ""
  description : String := ""
  expression : Option String := none
  severity : String := ""
deriving Repr, DecidableEq

/-- A declared rule set (named, insertable rule list). -/
structure FshRuleSet where
  name : String := ""
  rules : List FshRule := []
deriving Repr, DecidableEq

/-- A declared mapping. -/
structure FshMapping where
  name : String := ""
  id : String := ""
deriving Repr, DecidableEq

/-- The compilation-wide configuration: canonical root URL, default
version, and the root-metadata flag read by `setMetadata`. -/
structure Config where
  canonical : String := ""
  version : String := ""
  applyExtensionMetadataToRoot : Option Bool := none
deriving Repr, DecidableEq

/-- The tank of declared entities.  The source stores entities per
document and concatenates (`getAllProfiles` etc. flat-map over the
documents); the model carries the concatenated collections directly. -/
structure FSHTank where
  profiles : List FshStructure := []
  extensions : List FshStructure := []
  logicals : List FshStructure := []
  resources : List FshStructure := []
  instances : List FshInstance := []
  valueSets : List FshValueSet := []
  codeSystems : List FshCodeSystem := []
  invariants : List FshInvariant := []
  ruleSets : List FshRuleSet := []
  mappings : List FshMapping := []
  aliases : List (String × String) := []
  config : Config := {}
deriving Repr, DecidableEq

/-- Alias lookup across documents (`FSHTank.resolveAlias`). -/
def FSHTank.resolveAlias (tank : FSHTank) (name : String) : Option String :=
  lookupAssoc tank.aliases name

/-- Modelled from the spec: insert rules are expanded from the named rule
set before other processing (`applyInsertRules`, which is not among the
sources); a rule list free of insert rules is returned unchanged. -/
def expandInsertRules (tank : FSHTank) (rules : List FshRule) : List FshRule :=
  rules.flatMap (fun r =>
    match r with
    | .insertRule rs =>
      match tank.ruleSets.find? (fun s => s.name == rs) with
      | some s => s.rules
      | none => []
    | other => [other])

/-! ## Symbol resolver ("fishing") over the tank -/

/-- The kinds a resolver query may expect (the `Type` enum). -/
inductive FishType where
  | profile
  | extension
  | logical
  | resource
  | valueSet
  | codeSystem
  | inst
  | invariant
  | ruleSet
  | mapping
  | typeOther
deriving Repr, DecidableEq

/-- The union of entity kinds a tank query can return. -/
inductive FishResult where
  | profileR (p : FshStructure)
  | extensionR (e : FshStructure)
  | logicalR (l : FshStructure)
  | resourceR (r : FshStructure)
  | valueSetR (v : FshValueSet)
  | codeSystemR (c : FshCodeSystem)
  | instR (i : FshInstance)
  | invariantR (i : FshInvariant)
  | ruleSetR (r : FshRuleSet)
  | mappingR (m : FshMapping)
deriving Repr, DecidableEq

/-- Modelled from the spec: the canonical URL derived for a declared
definition (`getUrlFromFshDefinition`, not among the sources) — the
canonical root, the resource-type path segment, and the entity id. -/
def derivedUrl (canonical typeSegment id : String) : String :=
  canonical ++ "/" ++ typeSegment ++ "/" ++ id

/-- Derived canonical URL of a declared structure entity. -/
def structUrl (cfg : Config) (e : FshStructure) : String :=
  derivedUrl cfg.canonical "StructureDefinition" e.id

/-- Modelled from the spec: the version used when matching a `|version`
suffix (`getVersionFromFshDefinition`, not among the sources) — the
compilation-wide configured version. -/
def structVersion (cfg : Config) (_e : FshStructure) : String :=
  cfg.version

/-- Derived canonical URL of a declared value set. -/
def vsUrl (cfg : Config) (v : FshValueSet) : String :=
  derivedUrl cfg.canonical "ValueSet" v.id

/-- Derived canonical URL of a declared code system. -/
def csUrl (cfg : Config) (c : FshCodeSystem) : String :=
  derivedUrl cfg.canonical "CodeSystem" c.id

/-- The last string-valued assignment on a given path of a rule list
(later assignments override earlier ones). -/
def lastAssignedString (path : String) (rules : List FshRule) : Option String :=
  rules.foldl
    (fun acc r =>
      match r with
      | .assignment p (.str s) _ _ => if p == path then some s else acc
      | _ => acc)
    none

/-- Modelled from the spec: the URL a declared Instance is matched on —
its `url` assignment when present, else the derived canonical URL. -/
def instanceUrl (cfg : Config) (i : FshInstance) : String :=
  (lastAssignedString "url" i.rules).getD
    (derivedUrl cfg.canonical "StructureDefinition" i.id)

/-- Modelled from the spec: the version a declared Instance is matched
on — its `version` assignment when present, else the configured one. -/
def instanceVersion (cfg : Config) (i : FshInstance) : String :=
  (lastAssignedString "version" i.rules).getD cfg.version

/-- Declared-structure matcher: name, id, or derived canonical URL, and
the version when a `|version` suffix was supplied. -/
def structMatches (cfg : Config) (base : String) (version : Option String)
    (e : FshStructure) : Bool :=
  (e.name == base || e.id == base || structUrl cfg e == base) &&
    (version.isNone || version == some (structVersion cfg e))

/-- Declared value-set matcher. -/
def vsMatches (cfg : Config) (base : String) (version : Option String)
    (v : FshValueSet) : Bool :=
  (v.name == base || v.id == base || vsUrl cfg v == base) &&
    (version.isNone || version == some cfg.version)

/-- Declared code-system matcher. -/
def csMatches (cfg : Config) (base : String) (version : Option String)
    (c : FshCodeSystem) : Bool :=
  (c.name == base || c.id == base || csUrl cfg c == base) &&
    (version.isNone || version == some cfg.version)

/-- Does the rule list carry an `AssignmentRule` on `path` whose value is
the `FshCode` `c`? -/
def hasCodeAssignmentRule (path c : String) (rules : List FshRule) : Bool :=
  rules.any (fun r =>
    match r with
    | .assignment p (.code _ cc) _ _ => p == path && cc == c
    | _ => false)

/-- Does the rule list carry an `AssignmentRule` on `path` whose value is
the plain string `s`? -/
def hasStringAssignmentRule (path s : String) (rules : List FshRule) : Bool :=
  rules.any (fun r =>
    match r with
    | .assignment p (.str v) _ _ => p == path && v == s
    | _ => false)

/-- Name/id/url/version match for a definitional Instance of
StructureDefinition. -/
def instanceBaseMatches (cfg : Config) (base : String) (version : Option String)
    (i : FshInstance) : Bool :=
  i.instanceOf == "StructureDefinition" && i.usage == "Definition" &&
    (i.name == base || i.id == base || instanceUrl cfg i == base) &&
    (version.isNone || version == some (instanceVersion cfg i))

/-- Instance fallback for the Profile kind: derivation `constraint` and
no `type = "Extension"` string assignment. -/
def profileInstanceMatches (cfg : Config) (base : String) (version : Option String)
    (i : FshInstance) : Bool :=
  instanceBaseMatches cfg base version i &&
    hasCodeAssignmentRule "derivation" "constraint" i.rules &&
    !(hasStringAssignmentRule "type" "Extension" i.rules)

/-- Instance fallback for the Extension kind: derivation `constraint` and
a `type = "Extension"` string assignment. -/
def extensionInstanceMatches (cfg : Config) (base : String) (version : Option String)
    (i : FshInstance) : Bool :=
  instanceBaseMatches cfg base version i &&
    hasCodeAssignmentRule "derivation" "constraint" i.rules &&
    hasStringAssignmentRule "type" "Extension" i.rules

/-- Instance fallback for the Logical kind: derivation `specialization`
and kind `logical`. -/
def logicalInstanceMatches (cfg : Config) (base : String) (version : Option String)
    (i : FshInstance) : Bool :=
  instanceBaseMatches cfg base version i &&
    hasCodeAssignmentRule "derivation" "specialization" i.rules &&
    hasCodeAssignmentRule "kind" "logical" i.rules

/-- Instance fallback for the Resource kind: derivation `specialization`
and kind `resource`. -/
def resourceInstanceMatches (cfg : Config) (base : String) (version : Option String)
    (i : FshInstance) : Bool :=
  instanceBaseMatches cfg base version i &&
    hasCodeAssignmentRule "derivation" "specialization" i.rules &&
    hasCodeAssignmentRule "kind" "resource" i.rules

/-- Instance fallback for the ValueSet kind. -/
def vsInstanceMatches (cfg : Config) (base : String) (version : Option String)
    (i : FshInstance) : Bool :=
  i.instanceOf == "ValueSet" && i.usage == "Definition" &&
    (i.name == base || i.id == base || instanceUrl cfg i == base) &&
    (version.isNone || version == some (instanceVersion cfg i))

/-- Instance fallback for the CodeSystem kind. -/
def csInstanceMatches (cfg : Config) (base : String) (version : Option String)
    (i : FshInstance) : Bool :=
  i.instanceOf == "CodeSystem" && i.usage == "Definition" &&
    (i.name == base || i.id == base || instanceUrl cfg i == base) &&
    (version.isNone || version == some (instanceVersion cfg i))

/-- Direct Instance matcher (the `Type.Instance` case). -/
def instanceMatches (cfg : Config) (base : String) (version : Option String)
    (i : FshInstance) : Bool :=
  (i.name == base || i.id == base) &&
    (version.isNone || version == some (instanceVersion cfg i))

/-- One arm of the resolver's kind switch (the `switch (t)` body in
`FSHTank.fish`): the declared-entity search for that kind, falling back
to the definitional-Instance scan where the source does. -/
def fishOne (tank : FSHTank) (base : String) (version : Option String) :
    FishType → Option FishResult
  | .profile =>
    match tank.profiles.find? (structMatches tank.config base version) with
    | some p => some (.profileR p)
    | none =>
      (tank.instances.find? (profileInstanceMatches tank.config base version)).map .instR
  | .extension =>
    match tank.extensions.find? (structMatches tank.config base version) with
    | some e => some (.extensionR e)
    | none =>
      (tank.instances.find? (extensionInstanceMatches tank.config base version)).map .instR
  | .logical =>
    match tank.logicals.find? (structMatches tank.config base version) with
    | some l => some (.logicalR l)
    | none =>
      (tank.instances.find? (logicalInstanceMatches tank.config base version)).map .instR
  | .resource =>
    match tank.resources.find? (structMatches tank.config base version) with
    | some r => some (.resourceR r)
    | none =>
      (tank.instances.find? (resourceInstanceMatches tank.config base version)).map .instR
  | .valueSet =>
    match tank.valueSets.find? (vsMatches tank.config base version) with
    | some v => some (.valueSetR v)
    | none =>
      (tank.instances.find? (vsInstanceMatches tank.config base version)).map .instR
  | .codeSystem =>
    match tank.codeSystems.find? (csMatches tank.config base version) with
    | some c => some (.codeSystemR c)
    | none =>
      (tank.instances.find? (csInstanceMatches tank.config base version)).map .instR
  | .inst =>
    (tank.instances.find? (instanceMatches tank.config base version)).map .instR
  | .invariant =>
    (tank.invariants.find? (fun i => i.name == base)).map .invariantR
  | .ruleSet =>
    (tank.ruleSets.find? (fun r => r.name == base)).map .ruleSetR
  | .mapping =>
    (tank.mappings.find? (fun m => m.name == base)).map .mappingR
  | .typeOther => none

/-- The kind order substituted when no expected kinds are passed. -/
def allFishTypes : List FishType :=
  [.profile, .extension, .logical, .resource, .valueSet, .codeSystem,
   .inst, .invariant, .ruleSet, .mapping]

/-- First-match loop over the requested kinds (the `for (const t of
types)` loop with its early `return`). -/
def fishLoop (tank : FSHTank) (base : String) (version : Option String) :
    List FishType → Option FishResult
  | [] => none
  | t :: ts =>
    match fishOne tank base version t with
    | some r => some r
    | none => fishLoop tank base version ts

/-- The tank resolver `FSHTank.fish`: resolve aliases, split a `|version`
suffix, default empty expected kinds to the full kind list, and take the
first kind that matches. -/
def FSHTank.fish (tank : FSHTank) (item0 : String) (types0 : List FishType) :
    Option FishResult :=
  let item := (tank.resolveAlias item0).getD item0
  let parts := splitOnPipe item
  let base := parts.headD ""
  let version := let v := joinPipe parts.tail; if v == "" then none else some v
  let types := if types0.isEmpty then allFishTypes else types0
  fishLoop tank base version types

/-! ### Logical-model characteristics (`hasLogicalCharacteristic`) -/

/-- Canonical URL of the type-characteristics extension. -/
def TYPE_CHARACTERISTICS_EXTENSION : String :=
  "http://hl7.org/fhir/StructureDefinition/structuredefinition-type-characteristics"

/-- Canonical URL of the logical-target extension. -/
def LOGICAL_TARGET_EXTENSION : String :=
  "http://hl7.org/fhir/tools/StructureDefinition/logical-target"

/-- Parse a caret path of the shape `extension(\[idx\])?.url` into its
index (the regular expression in `hasLogicalCharacteristic`); the
unindexed form denotes index 0. -/
def extUrlCaretIndex (cp : String) : Option Nat :=
  if cp == "extension.url" then some 0
  else
    match stripPre cp.data "extension[".data with
    | none => none
    | some rest =>
      match stripSuf rest "].url".data with
      | none => none
      | some digits => parseDigits digits

/-- Insertion-ordered map update for `Nat`-keyed maps (JavaScript `Map.set`). -/
def natMapSet (m : List (Nat × String)) (k : Nat) (v : String) : List (Nat × String) :=
  if m.any (fun p => p.1 == k) then
    m.map (fun p => if p.1 == k then (k, v) else p)
  else m ++ [(k, v)]

/-- Last caret rule with empty path whose caret path is in the given
list (the `.filter(...).pop()` idiom). -/
def lastCaretValueFor (paths : List String) (rules : List FshRule) : Option FshRule :=
  (rules.filter (fun r =>
    match r with
    | .caretValue p cp _ _ => p == "" && paths.contains cp
    | _ => false)).getLast?

/-- Does a logical model declare the given characteristic, either in its
characteristics list or through caret rules on the type-characteristics
or logical-target extensions? -/
def hasLogicalCharacteristic (l : FshStructure) (code : String) : Bool :=
  if l.characteristics.contains code then true
  else
    let urlEntries := l.rules.filterMap (fun r =>
      match r with
      | .caretValue p cp v _ =>
        if p == "" then (extUrlCaretIndex cp).map (fun i => (i, fshValueToString v))
        else none
      | _ => none)
    let extensionUrls := urlEntries.foldl (fun m e => natMapSet m e.1 e.2) []
    extensionUrls.any (fun e =>
      let idx := e.1
      let url := e.2
      if url == TYPE_CHARACTERISTICS_EXTENSION then
        let caretPaths :=
          if idx == 0 then
            ["extension[" ++ natToStr idx ++ "].valueCode", "extension.valueCode"]
          else ["extension[" ++ natToStr idx ++ "].valueCode"]
        match lastCaretValueFor caretPaths l.rules with
        | some (.caretValue _ _ (.code _ c) _) => c == code
        | _ => false
      else if url == LOGICAL_TARGET_EXTENSION && code == "can-be-target" then
        let caretPaths :=
          if idx == 0 then
            ["extension[" ++ natToStr idx ++ "].valueBoolean", "extension.valueBoolean"]
          else ["extension[" ++ natToStr idx ++ "].valueBoolean"]
        match lastCaretValueFor caretPaths l.rules with
        | some (.caretValue _ _ (.boolean true) _) => true
        | _ => false
      else false)

/-! ### Metadata projection (`FSHTank.fishForMetadata`) -/

/-- The lightweight resolution-metadata projection returned when a full
artifact is not required. -/
structure Metadata where
  id : String := ""
  name : String := ""
  url : Option String := none
  parent : Option String := none
  resourceType : Option String := none
  sdType : Option String := none
  canBeTarget : Option Bool := none
  canBind : Option Bool := none
  instanceUsage : Option String := none
deriving Repr, DecidableEq

/-- Hl7 structure-definition URL root used when deriving a logical
model's `sdType`. -/
def HL7_SD_URL : String := "http://hl7.org/fhir/StructureDefinition/"

/-- Metadata for a declared structure entity (non-logical case). -/
def structMetadata (cfg : Config) (e : FshStructure) : Metadata :=
  { id := e.id, name := e.name, url := some (structUrl cfg e),
    parent := some e.parent, resourceType := some "StructureDefinition" }

/-- Drop the first `n` characters of a string. -/
def strDrop (s : String) (n : Nat) : String :=
  String.mk (s.data.drop n)

/-- The tank metadata projection: recomputed per query from the fished
entity (after insert-rule expansion), exactly as `fishForMetadata`
builds it. -/
def FSHTank.fishForMetadata (tank : FSHTank) (item : String)
    (types : List FishType) : Option Metadata :=
  match tank.fish item types with
  | none => none
  | some result =>
    match result with
    | .profileR p0 =>
      let p := { p0 with rules := expandInsertRules tank p0.rules }
      some (structMetadata tank.config p)
    | .extensionR e0 =>
      let e := { e0 with rules := expandInsertRules tank e0.rules }
      some (structMetadata tank.config e)
    | .resourceR r0 =>
      let r := { r0 with rules := expandInsertRules tank r0.rules }
      some (structMetadata tank.config r)
    | .logicalR l0 =>
      let l := { l0 with rules := expandInsertRules tank l0.rules }
      let url := structUrl tank.config l
      some { id := l.id, name := l.name, url := some url, parent := some l.parent,
             resourceType := some "StructureDefinition",
             sdType := some (if strStartsWith url HL7_SD_URL then
               strDrop url HL7_SD_URL.data.length else url),
             canBeTarget := some (hasLogicalCharacteristic l "can-be-target"),
             canBind := some (hasLogicalCharacteristic l "can-bind") }
    | .valueSetR v =>
      some { id := v.id, name := v.name, url := some (vsUrl tank.config v),
             resourceType := some "ValueSet" }
    | .codeSystemR c =>
      some { id := c.id, name := c.name, url := some (csUrl tank.config c),
             resourceType := some "CodeSystem" }
    | .instR i0 =>
      let i := { i0 with rules := expandInsertRules tank i0.rules }
      let url := i.rules.foldl
        (fun acc r =>
          match r with
          | .assignment p (.str s) _ _ => if p == "url" then some s else acc
          | _ => acc)
        none
      some { id := i.id, name := i.name, url := url, instanceUsage := some i.usage }
    | .invariantR i => some { id := "", name := i.name }
    | .ruleSetR r => some { id := "", name := r.name }
    | .mappingR m => some { id := m.id, name := m.name }

/-! ## Artifact (StructureDefinition) and element model

Modelled from the spec: the FHIR element-tree library
(`StructureDefinition` / `ElementDefinition` classes) is not among the
sources; elements are addressed here by their FSH path string (the
root element has the empty path), plain lookups fail closed, and slice
elements share their base path with a bracketed slice name. -/

/-- One allowed type of an element, with its profile-constraint list. -/
structure ElType where
  code : String := ""
  profile : List String := []
deriving Repr, DecidableEq

/-- An invariant constraint attached to an element: key, human
description, expression, severity, and the defining source URL. -/
structure ElConstraint where
  key : String := ""
  human : String := ""
  expression : Option String := none
  severity : String := ""
  source : String := ""
deriving Repr, DecidableEq

/-- A node of the element tree, addressed by its FSH path (the root
element has path `""`; a slice of `p` named `n` has path `p[n]`). -/
structure Element where
  path : String := ""
  sliceName : Option String := none
  short : Option String := none
  definition : Option String := none
  min : Nat := 0
  max : String := ""
  type : List ElType := []
  fixedUri : Option String := none
  assigned : Option (FshValue × Bool) := none
  binding : Option (String × String) := none
  constraint : List ElConstraint := []
  mustSupport : Option Bool := none
  summary : Option Bool := none
  modifier : Option Bool := none
  trialUse : Option Bool := none
  normative : Option Bool := none
  draft : Option Bool := none
  slicing : Option (String × String) := none
  overrides : List (String × FshValue) := []
deriving Repr, DecidableEq

/-- The compiled schema artifact (StructureDefinition), carrying the
metadata fields `setMetadata` touches, the transient `inProgress`
cycle-detection flag, and the element tree. -/
structure Artifact where
  id : String := ""
  name : String := ""
  url : String := ""
  version : String := ""
  status : String := ""
  title : Option String := none
  description : Option String := none
  meta : Option String := none
  implicitRules : Option String := none
  language : Option String := none
  text : Option String := none
  contained : Option (List String) := none
  identifier : Option (List String) := none
  experimental : Option Bool := none
  date : Option String := none
  publisher : Option String := none
  contact : Option (List String) := none
  useContext : Option (List String) := none
  jurisdiction : Option (List String) := none
  purpose : Option String := none
  copyright : Option String := none
  keyword : Option (List String) := none
  extension : Option (List String) := none
  modifierExtension : Option (List String) := none
  context : Option (List (String × String)) := none
  contextInvariant : Option (List String) := none
  kind : String := ""
  abstract : Bool := false
  type : String := ""
  baseDefinition : Option String := none
  derivation : Option String := none
  fhirVersion : Option String := none
  inProgress : Bool := false
  elements : List Element := []
  overrides : List (String × FshValue) := []
deriving Repr, DecidableEq

/-- Element lookup by FSH path (`findElementByPath`): the empty path
addresses the root element; unknown paths fail closed. -/
def findElementByPath (sd : Artifact) (path : String) : Option Element :=
  if path == "" then sd.elements.head?
  else sd.elements.find? (fun el => el.path == path)

/-- Pointwise in-place update of the element at a path (reference
mutation of an element in the tree). -/
def updateElementAt (sd : Artifact) (path : String) (f : Element → Element) : Artifact :=
  { sd with elements := sd.elements.map (fun el => if el.path == path then f el else el) }

/-- Update the root (first) element of the tree (`structDef.elements[0]`). -/
def updateRootElement (sd : Artifact) (f : Element → Element) : Artifact :=
  { sd with elements :=
      match sd.elements with
      | [] => []
      | r :: rest => f r :: rest }

/-- The slices of the element at `basePath` (`element.getSlices()`). -/
def getSlices (sd : Artifact) (basePath : String) : List Element :=
  sd.elements.filter (fun el =>
    match el.sliceName with
    | some n => el.path == basePath ++ "[" ++ n ++ "]"
    | none => false)

/-- Insert new elements immediately after the last element satisfying the
predicate (slice creation inserts after the last sibling sharing the
base path, preserving declaration order). -/
def insertAfterLastMatching (p : Element → Bool) (new : List Element) :
    List Element → List Element
  | [] => new
  | x :: xs =>
    if p x && !(xs.any p) then x :: (new ++ xs)
    else x :: insertAfterLastMatching p new xs

/-- Errors raised inside rule application and caught at the rule
boundary. -/
inductive RuleError where
  | duplicateSlice (sliceName elementPath : String)
  | invalidFHIRId (id : String)
deriving Repr, DecidableEq

/-- Modelled from the spec: `element.addSlice(name)` — fails with a
`DuplicateSliceError` when a slice of that name already exists for the
element, otherwise clones the element as a named slice (together with
its on-demand `url` child) inserted after the last sibling with the
same base path. -/
def addSlice (sd : Artifact) (el : Element) (name : String) : Except RuleError Artifact :=
  let slicePath := el.path ++ "[" ++ name ++ "]"
  if sd.elements.any (fun x => x.path == slicePath) then
    .error (.duplicateSlice name el.path)
  else
    let sliceEl : Element :=
      { el with
        path := slicePath
        sliceName := some name
        slicing := none }
    let urlEl : Element :=
      { path := slicePath ++ ".url"
        type := [{ code := "uri" }]
        max := "1" }
    let newElements :=
      insertAfterLastMatching (fun x => strStartsWith x.path el.path)
        [sliceEl, urlEl] sd.elements
    .ok { sd with elements := newElements }

/-- Push a profile URL onto the first type of an element
(`slice.type[0].profile.push(url)` with on-demand list creation). -/
def pushProfileOnHead (types : List ElType) (url : String) : List ElType :=
  match types with
  | [] => []
  | t :: rest => { t with profile := t.profile ++ [url] } :: rest

/-! ## Diagnostics and exporter state -/

/-- Errors that abort the compilation of one entity (thrown out of
`exportStructDef`); `stackOverflow` marks exhaustion of the modelled
recursion depth. -/
inductive ExpError where
  | parentNotProvided (name : String)
  | parentDeclaredAsName (name : String)
  | parentDeclaredAsId (name id : String)
  | parentNotDefined (name parent : String)
  | invalidProfileParent (name parent : String)
  | invalidExtensionParent (name parent : String)
  | invalidLogicalParent (name parent : String)
  | stackOverflow
deriving Repr, DecidableEq

/-- Severity of a reported diagnostic. -/
inductive DiagSev where
  | error
  | warn
  | info
deriving Repr, DecidableEq

/-- The payloads of logger messages emitted by the embedded code. -/
inductive DiagMsg where
  | circular (name parent : String)
  | duplicateId (id : String)
  | valueAndSubExtensions (name : String)
  | noElement (path name : String)
  | noElementCaret (path name : String)
  | cannotFindInvariant (invariant id : String)
  | typeOnNonExtension (item path : String)
  | unableToLocateExtension (item type : String)
  | inlineExtension
  | cannotFindInstance (value : String)
  | cannotAssignInstance (path typeCode value : String)
  | caught (e : RuleError)
  | exportFailed (e : ExpError)
deriving Repr, DecidableEq

/-- One diagnostic: severity plus message payload. -/
structure Diag where
  sev : DiagSev
  msg : DiagMsg
deriving Repr, DecidableEq

/-- The mutable exporter state: the output package partitioned by kind,
the accumulated diagnostics, and the deferred caret-rule queue (keyed
by owning artifact name). -/
structure ExpState where
  profiles : List Artifact := []
  extensions : List Artifact := []
  logicals : List Artifact := []
  log : List Diag := []
  deferred : List (String × FshRule) := []
deriving Repr, DecidableEq

/-- The exporter's collaborators: the tank of declared entities, the
external schema-definition library (last-resort lookup), and the
instance compiler's results for instance-valued assignments. -/
structure Env where
  tank : FSHTank := {}
  external : List (String × Artifact) := []
  instanceDefs : List (String × FshValue) := []
deriving Repr, DecidableEq

/-- Artifacts of the published package visible to a fisher query for the
given expected kinds. -/
def pkgArtifactsForTypes (st : ExpState) (types : List FishType) : List Artifact :=
  if types.isEmpty then st.profiles ++ st.extensions ++ st.logicals
  else
    (if types.contains .profile then st.profiles else []) ++
    (if types.contains .extension then st.extensions else []) ++
    (if types.contains .logical then st.logicals else [])

/-- Modelled from the spec: the published-package side of the master
fisher — find an already-published artifact by name, id, or URL. -/
def pkgFishForFHIR (st : ExpState) (item : String) (types : List FishType) :
    Option Artifact :=
  (pkgArtifactsForTypes st types).find?
    (fun a => a.name == item || a.id == item || a.url == item)

/-- Modelled from the spec: the master fisher's full-definition lookup —
the already-published artifact collection, then the external
schema-definition library collaborator.  The returned artifact is the
stored one (its JSON round-trip preserves the transient `inProgress`
flag, which is how re-entrant compilation is detected). -/
def fisherFishForFHIR (env : Env) (st : ExpState) (item : String)
    (types : List FishType) : Option Artifact :=
  match pkgFishForFHIR st item types with
  | some a => some a
  | none => lookupAssoc env.external item

/-- Metadata projection of a published or external artifact. -/
def artifactMetadata (a : Artifact) : Metadata :=
  { id := a.id, name := a.name, url := some a.url, parent := a.baseDefinition,
    resourceType := some "StructureDefinition", sdType := some a.type }

/-- Modelled from the spec: the master fisher's metadata lookup — the
declared-entity tank first, then published artifacts, then the
external library. -/
def masterFishForMetadata (env : Env) (st : ExpState) (item : String)
    (types : List FishType) : Option Metadata :=
  match FSHTank.fishForMetadata env.tank item types with
  | some m => some m
  | none =>
    match pkgFishForFHIR st item types with
    | some a => some (artifactMetadata a)
    | none => (lookupAssoc env.external item).map artifactMetadata

/-! ## Preprocessing (`preprocessStructureDefinition`)

Scans rule paths for extension shape to infer `value[x]`/`extension`
exclusivity, appending synthesized 0..0 cardinality rules. -/

/-- Is the rule a `CardRule` with max `"0"`? -/
def isCardMaxZero : FshRule → Bool
  | .card _ _ mx => mx == "0"
  | _ => false

/-- Insertion-ordered boolean map read (JavaScript `Map.get`); note that
only a stored `true` is truthy. -/
def mapGetB (m : List (String × Bool)) (k : String) : Option Bool :=
  lookupAssoc m k

/-- Insertion-ordered boolean map update (JavaScript `Map.set`). -/
def mapSetB (m : List (String × Bool)) (k : String) (v : Bool) : List (String × Bool) :=
  if m.any (fun p => p.1 == k) then
    m.map (fun p => if p.1 == k then (k, v) else p)
  else m ++ [(k, v)]

/-- One path-part step of the preprocessing scan (the body of the inner
`forEach` over a rule's path parts). -/
def preprocessPart (isExtension : Bool) (name : String) (rule : FshRule)
    (parts : List String) (acc : List (String × Bool) × List Diag)
    (i : Nat) (part : String) : List (String × Bool) × List Diag :=
  let m := acc.1
  let diags := acc.2
  let previous := if i == 0 then none else parts.get? (i - 1)
  let isOnExtension :=
    (isExtension && parts.length == 1) ||
      (match previous with
       | some pp => strStartsWith pp "extension"
       | none => false)
  if !isOnExtension then acc
  else
    let initialPath := joinDot (parts.take i)
    let basePath := if initialPath == "" then "" else initialPath ++ "."
    if strStartsWith part "extension" then
      let contradictoryKey := basePath ++ "extension"
      let entry := mapGetB m contradictoryKey
      if !(isCardMaxZero rule) then
        if entry == some true then
          (mapSetB m contradictoryKey false,
           diags ++ [⟨.error, .valueAndSubExtensions name⟩])
        else (mapSetB m (basePath ++ "value[x]") true, diags)
      else
        if entry == some true then (mapSetB m contradictoryKey false, diags)
        else (m, diags)
    else if strStartsWith part "value" then
      let contradictoryKey := basePath ++ "value[x]"
      let entry := mapGetB m contradictoryKey
      if !(isCardMaxZero rule) then
        if entry == some true then
          (mapSetB m contradictoryKey false,
           diags ++ [⟨.error, .valueAndSubExtensions name⟩])
        else (mapSetB m (basePath ++ "extension") true, diags)
      else
        if entry == some true then (mapSetB m contradictoryKey false, diags)
        else (m, diags)
    else acc

/-- Scan one rule's path parts (the outer `forEach` body). -/
def preprocessRule (isExtension : Bool) (name : String)
    (acc : List (String × Bool) × List Diag) (rule : FshRule) :
    List (String × Bool) × List Diag :=
  let parts := splitOnPathPeriods rule.path
  parts.enum.foldl
    (fun a ip => preprocessPart isExtension name rule parts a ip.1 ip.2) acc

/-- Preprocessing of a definition's rules: infer the exclusivity map over
all rules, then append a synthesized `CardRule` (0..0) for every key
still marked for inference.  Returns the full rule list (original rules
followed by the inferred ones) and the diagnostics emitted. -/
def preprocessStructureDefinition (isExtension : Bool) (name : String)
    (rules : List FshRule) : List FshRule × List Diag :=
  let scanned := rules.foldl (preprocessRule isExtension name) ([], [])
  let inferred := (scanned.1.filter (fun p => p.2)).map
    (fun p => FshRule.card p.1 0 "0")
  (rules ++ inferred, scanned.2)

/-! ## Metadata (`setMetadata`) -/

/-- The extensions that are not inherited by derived definitions
(`UNINHERITED_EXTENSIONS`). -/
def UNINHERITED_EXTENSIONS : List String :=
  ["http://hl7.org/fhir/StructureDefinition/structuredefinition-standards-status",
   "http://hl7.org/fhir/StructureDefinition/structuredefinition-normative-version",
   "http://hl7.org/fhir/StructureDefinition/structuredefinition-explicit-type-name",
   "http://hl7.org/fhir/StructureDefinition/structuredefinition-fmm",
   "http://hl7.org/fhir/StructureDefinition/structuredefinition-wg",
   "http://hl7.org/fhir/StructureDefinition/structuredefinition-summary"]

/-- Filter the non-inheritable extensions off an extension list, deleting
the field when the result is empty (as the source does). -/
def filterUninherited : Option (List String) → Option (List String)
  | none => none
  | some l =>
    let f := l.filter (fun u => !(UNINHERITED_EXTENSIONS.contains u))
    if f.isEmpty then none else some f

/-- Set/clear the artifact metadata copied from the parent: save the
parent's URL first (it becomes `baseDefinition`), reset the
non-propagating fields, set id/name/url/version/status, mirror
title/description onto the root element for extensions, force the
`url` element's fixed value and a default context for extensions, and
set the derivation (specialization for logicals, else constraint) and,
for logicals, the root type to the entity's own id. -/
def setMetadata (cfg : Config) (sd0 : Artifact) (e : FshStructure) : Artifact :=
  let baseURL := sd0.url
  let sd : Artifact :=
    { sd0 with
      id := e.id
      meta := none
      implicitRules := none
      language := none
      text := none
      contained := none
      extension := filterUninherited sd0.extension
      modifierExtension := filterUninherited sd0.modifierExtension
      url := structUrl cfg e
      identifier := none
      version := cfg.version
      name := e.name
      title := e.title
      status := "active"
      experimental := none
      date := none
      publisher := none
      contact := none
      description := e.description
      useContext := none
      jurisdiction := none
      purpose := none
      copyright := none
      keyword := none
      kind := if e.sdType == .logical then "logical" else sd0.kind
      abstract := false
      context := if e.sdType == .extension then sd0.context else none
      contextInvariant := if e.sdType == .extension then sd0.contextInvariant else none
      type := if e.sdType == .logical then e.id else sd0.type
      baseDefinition := some baseURL
      derivation := some (if e.sdType == .logical then "specialization" else "constraint") }
  let applyToRoot := e.sdType == .extension &&
    !(cfg.applyExtensionMetadataToRoot == some false)
  let sd :=
    match e.title with
    | some t => if applyToRoot then updateRootElement sd (fun r => { r with short := some t }) else sd
    | none => sd
  let sd :=
    match e.description with
    | some d => if applyToRoot then updateRootElement sd (fun r => { r with definition := some d }) else sd
    | none => sd
  if e.sdType == .extension then
    let sd := updateElementAt sd "url" (fun u => { u with fixedUri := some sd.url })
    if sd.context.isNone then { sd with context := some [("element", "Element")] }
    else sd
  else sd

/-! ## Extension contains-rules (`handleExtensionContainsRule`) -/

/-- Handle a `ContainsRule` on an extension-shaped element: establish
value/url slicing if needed; per item, resolve a named extension type
and constrain the new slice's profile to its URL (downgrading a
duplicate-slice conflict to a warning when the existing slice already
carries the same URL), or create an inline-extension slice, fixing its
`url` element to the slice name and reporting inline use outside
Extension definitions. -/
def handleExtensionContainsRule (env : Env) (st : ExpState) (fshKind : SDType)
    (rulePath : String) (items : List ContainsItem) (sd0 : Artifact) :
    Artifact × List Diag :=
  let sd1 :=
    match findElementByPath sd0 rulePath with
    | some el =>
      if el.slicing.isNone then
        updateElementAt sd0 el.path (fun x => { x with slicing := some ("value", "url") })
      else sd0
    | none => sd0
  items.foldl
    (fun acc item =>
      let sd := acc.1
      let log := acc.2
      match findElementByPath sd rulePath with
      | none => acc
      | some el =>
        match item.type with
        | some ty =>
          match masterFishForMetadata env st ty [.extension] with
          | none => (sd, log ++ [⟨.error, .unableToLocateExtension item.name ty⟩])
          | some extMeta =>
            let extUrl := extMeta.url.getD ""
            match addSlice sd el item.name with
            | .ok sd' =>
              let slicePath := el.path ++ "[" ++ item.name ++ "]"
              (updateElementAt sd' slicePath
                (fun s => { s with type := pushProfileOnHead s.type extUrl }), log)
            | .error err =>
              match err with
              | .duplicateSlice _ _ =>
                let sliceOpt := (getSlices sd el.path).find?
                  (fun s => s.sliceName == some item.name)
                let sameUrl :=
                  match sliceOpt with
                  | some s =>
                    match s.type.head? with
                    | some t => t.profile.any (fun p => p == extUrl)
                    | none => false
                  | none => false
                if sameUrl then (sd, log ++ [⟨.warn, .caught err⟩])
                else (sd, log ++ [⟨.error, .caught err⟩])
              | _ => (sd, log ++ [⟨.error, .caught err⟩])
        | none =>
          match addSlice sd el item.name with
          | .ok sd' =>
            let slicePath := el.path ++ "[" ++ item.name ++ "]"
            let sd'' := updateElementAt sd' (slicePath ++ ".url")
              (fun u => { u with assigned := some (.str item.name, true) })
            if fshKind == .profile || fshKind == .logical then
              (sd'', log ++ [⟨.error, .inlineExtension⟩])
            else (sd'', log)
          | .error err => (sd, log ++ [⟨.error, .caught err⟩]))
    (sd1, [])

/-! ## Rule application (`setRules`) -/

/-- Apply a flag rule's defined flags to an element (`applyFlags`). -/
def applyFlagsEl (ms s mo tu n d : Option Bool) (el : Element) : Element :=
  { el with
    mustSupport := match ms with | some b => some b | none => el.mustSupport
    summary := match s with | some b => some b | none => el.summary
    modifier := match mo with | some b => some b | none => el.modifier
    trialUse := match tu with | some b => some b | none => el.trialUse
    normative := match n with | some b => some b | none => el.normative
    draft := match d with | some b => some b | none => el.draft }

/-- Apply one non-AddElement rule (the body of the `for (const rule of
sdRules)` loop): resolve the path, handle caret rules whether or not an
element resolved, dispatch by rule kind when one did, and report a
skipped rule otherwise.  Errors thrown inside a rule are caught and
logged at the rule boundary. -/
def applySdRule (env : Env) (st : ExpState) (fshKind : SDType) (defName : String)
    (acc : Artifact × List Diag × List (String × FshRule)) (rule : FshRule) :
    Artifact × List Diag × List (String × FshRule) :=
  let sd := acc.1
  let log := acc.2.1
  let defs := acc.2.2
  let elOpt := findElementByPath sd rule.path
  let caretHandled : Artifact × List Diag × List (String × FshRule) :=
    match rule with
    | .caretValue p cp v isInst =>
      if p != "" then
        match elOpt with
        | some el =>
          (updateElementAt sd el.path
            (fun x => { x with overrides := x.overrides ++ [(cp, v)] }), log, defs)
        | none => (sd, log ++ [⟨.error, .noElementCaret p defName⟩], defs)
      else
        if isInst then (sd, log, defs ++ [(sd.name, rule)])
        else ({ sd with overrides := sd.overrides ++ [(cp, v)] }, log, defs)
    | _ => (sd, log, defs)
  let sd := caretHandled.1
  let log := caretHandled.2.1
  let defs := caretHandled.2.2
  match elOpt with
  | some el =>
    match rule with
    | .card _ mn mx =>
      (updateElementAt sd el.path (fun x => { x with min := mn, max := mx }), log, defs)
    | .assignment _ v isInst ex =>
      if isInst then
        match v with
        | .str nm =>
          match lookupAssoc env.instanceDefs nm with
          | none =>
            if el.type.length == 1 then
              (sd, log ++ [⟨.error,
                .cannotAssignInstance rule.path ((el.type.headD {}).code) nm⟩], defs)
            else (sd, log ++ [⟨.error, .cannotFindInstance nm⟩], defs)
          | some instVal =>
            (updateElementAt sd el.path
              (fun x => { x with assigned := some (instVal, ex) }), log, defs)
        | _ =>
          (updateElementAt sd el.path
            (fun x => { x with assigned := some (v, ex) }), log, defs)
      else
        (updateElementAt sd el.path
          (fun x => { x with assigned := some (v, ex) }), log, defs)
    | .flag _ ms s mo tu n d =>
      (updateElementAt sd el.path (applyFlagsEl ms s mo tu n d), log, defs)
    | .only _ tys =>
      (updateElementAt sd el.path
        (fun x => { x with type := x.type.filter (fun t => tys.contains t.code) }),
       log, defs)
    | .binding _ vs strength =>
      let vsURI := ((masterFishForMetadata env st vs [.valueSet]).bind
        (fun m => m.url)).getD vs
      (updateElementAt sd el.path
        (fun x => { x with binding := some (vsURI, strength) }), log, defs)
    | .containsRule _ items =>
      let isExtensionEl := el.type.length == 1 &&
        (el.type.headD {}).code == "Extension" && el.sliceName.isNone
      if isExtensionEl then
        let handled := handleExtensionContainsRule env st fshKind rule.path items sd
        (handled.1, log ++ handled.2, defs)
      else
        let sliced : Artifact × List Diag := items.foldl
          (fun acc2 item =>
            let sd2 := acc2.1
            let log2 := acc2.2
            let log3 :=
              if item.type.isSome then
                log2 ++ [⟨DiagSev.error, .typeOnNonExtension item.name rule.path⟩]
              else log2
            match addSlice sd2 el item.name with
            | .ok sd3 => (sd3, log3)
            | .error err => (sd2, log3 ++ [⟨DiagSev.error, .caught err⟩]))
          (sd, log)
        (sliced.1, sliced.2, defs)
    | .obeys _ invName =>
      match FSHTank.fish env.tank invName [.invariant] with
      | some (.invariantR inv) =>
        let sd' := updateElementAt sd el.path (fun x =>
          { x with constraint := x.constraint ++
              [{ key := inv.name, human := inv.description,
                 expression := inv.expression, severity := inv.severity,
                 source := sd.url }] })
        if idRegexTest inv.name then (sd', log, defs)
        else (sd', log ++ [⟨.error, .caught (.invalidFHIRId inv.name)⟩], defs)
      | _ => (sd, log ++ [⟨.error, .cannotFindInvariant invName sd.id⟩], defs)
    | .caretValue _ _ _ _ => (sd, log, defs)
    | .insertRule _ => (sd, log, defs)
    | .addElement _ _ _ _ => (sd, log, defs)
  | none => (sd, log ++ [⟨.error, .noElement rule.path defName⟩], defs)

/-- Apply the rules of a definition to its artifact (`setRules`):
AddElement rules run first, creating their elements; the remaining
rules run in declaration order through `applySdRule`.  (Soft-index
normalization is the identity on the soft-index-free paths modelled
here.)  Returns the mutated artifact, the diagnostics, and the deferred
caret rules. -/
def setRules (env : Env) (st : ExpState) (fshKind : SDType) (defName : String)
    (sd0 : Artifact) (rules : List FshRule) :
    Artifact × List Diag × List (String × FshRule) :=
  let addRules := rules.filter (fun r =>
    match r with | .addElement _ _ _ _ => true | _ => false)
  let sdRules := rules.filter (fun r =>
    match r with | .addElement _ _ _ _ => false | _ => true)
  let sd1 := addRules.foldl
    (fun sd r =>
      match r with
      | .addElement p mn mx tys =>
        { sd with elements := sd.elements ++
            [{ path := p, min := mn, max := mx, type := tys.map (fun c => { code := c }) }] }
      | _ => sd)
    sd0
  sdRules.foldl (applySdRule env st fshKind defName) (sd1, [], [])

/-! ## The exporter state machine (`exportStructDef`) -/

/-- The early-exit check at the top of `exportStructDef`: has an artifact
with this entity's name already been published to any partition? -/
def alreadyExported (st : ExpState) (e : FshStructure) : Bool :=
  st.profiles.any (fun sd => sd.name == e.name) ||
  st.extensions.any (fun sd => sd.name == e.name) ||
  st.logicals.any (fun sd => sd.name == e.name)

/-- The pure front half of `getStructureDefinition`: default the parent
for Extension/Logical entities (fatal `ParentNotProvided` for a
Profile without one), then reject a parent equal to the entity's own
name or own id. -/
def getStructureDefinitionPre (e : FshStructure) : Except ExpError String :=
  let parentName :=
    if e.parent == "" then
      match e.sdType with
      | .profile => ""
      | .extension => "Extension"
      | .logical => "Element"
      | .resource => ""
    else e.parent
  if e.parent == "" && e.sdType == .profile then
    .error (.parentNotProvided e.name)
  else if e.name == parentName then
    .error (.parentDeclaredAsName e.name)
  else if e.id == parentName then
    .error (.parentDeclaredAsId e.name e.id)
  else .ok parentName

/-- The back half of `getStructureDefinition`: an unresolved parent is
fatal, then kind-compatibility checks per entity type; on success the
parent definition is deep-copied (`StructureDefinition.fromJSON`) as
the working artifact. -/
def getStructureDefinitionPost (e : FshStructure) (parentName : String) :
    Option Artifact → Except ExpError Artifact
  | none => .error (.parentNotDefined e.name parentName)
  | some pj =>
    if e.sdType == .profile && pj.kind == "logical" then
      .error (.invalidProfileParent e.name parentName)
    else if e.sdType == .extension && pj.type != "Extension" then
      .error (.invalidExtensionParent e.name parentName)
    else if e.sdType == .logical && !(pj.kind == "logical" || pj.type == "Element") then
      .error (.invalidLogicalParent e.name parentName)
    else .ok pj

/-- Publish an artifact into the partition its type/kind selects
(extensions by type, logicals by kind, profiles otherwise). -/
def pushArtifact (st : ExpState) (a : Artifact) : ExpState :=
  if a.type == "Extension" then { st with extensions := st.extensions ++ [a] }
  else if a.kind == "logical" then { st with logicals := st.logicals ++ [a] }
  else { st with profiles := st.profiles ++ [a] }

/-- Write the finished artifact back over the published skeleton of the
same name (the source mutates the pushed object in place; the model
writes the final value back by name). -/
def replaceArtifact (st : ExpState) (name : String) (a : Artifact) : ExpState :=
  { st with
    profiles := st.profiles.map (fun p => if p.name == name then a else p)
    extensions := st.extensions.map (fun p => if p.name == name then a else p)
    logicals := st.logicals.map (fun p => if p.name == name then a else p) }

/-- The post-publication duplicate-id check: does any other (distinct)
artifact in the profiles, extensions, or logicals partition share this
artifact's id?  (Reference distinctness is modelled structurally.) -/
def dupIdCheck (st : ExpState) (a : Artifact) : Bool :=
  st.profiles.any (fun p => a.id == p.id && !(a == p)) ||
  st.extensions.any (fun p => a.id == p.id && !(a == p)) ||
  st.logicals.any (fun p => a.id == p.id && !(a == p))

/-- Export one Profile/Extension/Logical entity to a published artifact
(`exportStructDef`), made total by an explicit recursion depth: the
early exit when the name is already published (returning no artifact),
parent resolution through the fisher — on a miss, fishing the tank and
exporting the parent entity on demand, then re-fishing — the
circular-dependency warning when the resolved parent artifact still
carries `inProgress`, metadata and skeleton publication before rule
application, preprocessing and rule application, and finally clearing
`inProgress` and reporting duplicate ids.  Structural errors propagate
to the caller; exhausted depth is `stackOverflow`. -/
def exportStructDef : Nat → Env → ExpState → FshStructure →
    Except ExpError (Option Artifact) × ExpState
  | 0, _, st, _ => (.error .stackOverflow, st)
  | fuel + 1, env, st, e =>
    if alreadyExported st e then (.ok none, st)
    else
      match getStructureDefinitionPre e with
      | .error err => (.error err, st)
      | .ok parentName =>
        let fished : Except ExpError (Option Artifact) × ExpState :=
          match fisherFishForFHIR env st parentName [] with
          | some a => (.ok (some a), st)
          | none =>
            match FSHTank.fish env.tank parentName [.profile, .extension, .logical] with
            | some (.profileR pe) =>
              match exportStructDef fuel env st pe with
              | (.error err, st') => (.error err, st')
              | (.ok _, st') => (.ok (fisherFishForFHIR env st' parentName []), st')
            | some (.extensionR pe) =>
              match exportStructDef fuel env st pe with
              | (.error err, st') => (.error err, st')
              | (.ok _, st') => (.ok (fisherFishForFHIR env st' parentName []), st')
            | some (.logicalR pe) =>
              match exportStructDef fuel env st pe with
              | (.error err, st') => (.error err, st')
              | (.ok _, st') => (.ok (fisherFishForFHIR env st' parentName []), st')
            | _ => (.ok none, st)
        match fished with
        | (.error err, st1) => (.error err, st1)
        | (.ok parentJson, st1) =>
          match getStructureDefinitionPost e parentName parentJson with
          | .error err => (.error err, st1)
          | .ok structDef0 =>
            let st2 :=
              if structDef0.inProgress then
                { st1 with log := st1.log ++ [⟨.warn, .circular e.name parentName⟩] }
              else st1
            let structDef1 := { structDef0 with inProgress := true }
            let structDef2 := setMetadata env.tank.config structDef1 e
            let st3 := pushArtifact st2 structDef2
            let rules1 := expandInsertRules env.tank e.rules
            let pre := preprocessStructureDefinition (structDef2.type == "Extension")
              e.name rules1
            let st4 := { st3 with log := st3.log ++ pre.2 }
            let applied := setRules env st4 e.sdType e.name structDef2 pre.1
            let sdFinal := { applied.1 with inProgress := false }
            let st5 := { st4 with
              log := st4.log ++ applied.2.1
              deferred := st4.deferred ++ applied.2.2 }
            let st6 := replaceArtifact st5 structDef2.name sdFinal
            let st7 :=
              if dupIdCheck st6 sdFinal then
                { st6 with log := st6.log ++ [⟨.error, .duplicateId sdFinal.id⟩] }
              else st6
            (.ok (some sdFinal), st7)

/-! ## Claim-side description of the resolver order

A second definition of the resolution procedure, written the way the
specification describes it, to be proved equal to `FSHTank.fish` on
empty expected-kind lists. -/

/-- First-match combination: the left search, and only if it fails, the
right one. -/
def orFirst (a b : Option FishResult) : Option FishResult :=
  match a with
  | some r => some r
  | none => b

/-- Take the first defined result of an ordered list of searches. -/
def firstSome : List (Option FishResult) → Option FishResult
  | [] => none
  | o :: os =>
    match o with
    | some r => some r
    | none => firstSome os

/-- The resolution procedure as the specification sentence states it:
kinds are searched in the order Profile, Extension, Logical, Resource,
ValueSet, CodeSystem, Instance, Invariant, RuleSet, Mapping and the
first match wins; within each structure-definition kind the declared
entities are matched first (name, id, or derived canonical URL, and
version when a `|version` suffix was supplied), and only if that
fails are definitional Instances declaring that kind matched. -/
def fishSpecOrdered (tank : FSHTank) (item0 : String) : Option FishResult :=
  let item := (tank.resolveAlias item0).getD item0
  let parts := splitOnPipe item
  let base := parts.headD ""
  let version := let v := joinPipe parts.tail; if v == "" then none else some v
  let cfg := tank.config
  firstSome
    [orFirst ((tank.profiles.find? (structMatches cfg base version)).map .profileR)
       ((tank.instances.find? (profileInstanceMatches cfg base version)).map .instR),
     orFirst ((tank.extensions.find? (structMatches cfg base version)).map .extensionR)
       ((tank.instances.find? (extensionInstanceMatches cfg base version)).map .instR),
     orFirst ((tank.logicals.find? (structMatches cfg base version)).map .logicalR)
       ((tank.instances.find? (logicalInstanceMatches cfg base version)).map .instR),
     orFirst ((tank.resources.find? (structMatches cfg base version)).map .resourceR)
       ((tank.instances.find? (resourceInstanceMatches cfg base version)).map .instR),
     orFirst ((tank.valueSets.find? (vsMatches cfg base version)).map .valueSetR)
       ((tank.instances.find? (vsInstanceMatches cfg base version)).map .instR),
     orFirst ((tank.codeSystems.find? (csMatches cfg base version)).map .codeSystemR)
       ((tank.instances.find? (csInstanceMatches cfg base version)).map .instR),
     (tank.instances.find? (instanceMatches cfg base version)).map .instR,
     (tank.invariants.find? (fun i => i.name == base)).map .invariantR,
     (tank.ruleSets.find? (fun r => r.name == base)).map .ruleSetR,
     (tank.mappings.find? (fun m => m.name == base)).map .mappingR]

/-! ## Concrete fixtures

Small, fully concrete tanks and artifacts used to run the embedded
pipeline on closed inputs. -/

/-- A minimal external Patient structure definition. -/
def patientArt : Artifact :=
  { id := "Patient"
    name := "Patient"
    url := "http://hl7.org/fhir/StructureDefinition/Patient"
    version := "4.0.1"
    status := "active"
    kind := "resource"
    type := "Patient"
    elements := [{ path := "", min := 0, max := "*" },
                 { path := "name", min := 0, max := "*", type := [{ code := "HumanName" }] },
                 { path := "gender", min := 0, max := "1", type := [{ code := "code" }] }] }

/-- A profile of Patient declared in the tank. -/
def entP : FshStructure :=
  { sdType := .profile, name := "P", id := "p", parent := "Patient" }

/-- Environment for exporting `entP`: the tank declares it and the
external library provides Patient. -/
def envP : Env :=
  { tank := { profiles := [entP]
              config := { canonical := "http://example.org", version := "0.1.0" } }
    external := [("Patient", patientArt)] }

/-- Mutually-parented profile `A` (parent `B`). -/
def entA : FshStructure :=
  { sdType := .profile, name := "A", id := "a", parent := "B" }

/-- Mutually-parented profile `B` (parent `A`). -/
def entB : FshStructure :=
  { sdType := .profile, name := "B", id := "b", parent := "A" }

/-- Environment declaring only the mutually-parented pair. -/
def envAB : Env :=
  { tank := { profiles := [entA, entB]
              config := { canonical := "http://example.org", version := "0.1.0" } } }

/-- The property that the mutually-parented pair never completes: at
every recursion depth, exporting either entity exhausts the depth and
leaves the state untouched — neither artifact is ever published. -/
def mutualParentsDiverge : Prop :=
  ∀ n : Nat,
    exportStructDef n envAB {} entA = (.error .stackOverflow, ({} : ExpState)) ∧
    exportStructDef n envAB {} entB = (.error .stackOverflow, ({} : ExpState))

/-- A published artifact already carrying the `inProgress` flag, used as
a parent (re-entrant compilation through the published collection). -/
def inProgressParent : Artifact :=
  { id := "Base"
    name := "Base"
    url := "http://example.org/StructureDefinition/Base"
    version := "0.1.0"
    status := "active"
    kind := "resource"
    type := "Patient"
    inProgress := true
    elements := [{ path := "", min := 0, max := "*" },
                 { path := "name", min := 0, max := "*", type := [{ code := "HumanName" }] }] }

/-- A profile whose parent is the in-progress published artifact. -/
def entC : FshStructure :=
  { sdType := .profile, name := "C", id := "c", parent := "Base" }

/-- Environment for the re-entrant scenario. -/
def envC : Env :=
  { tank := { profiles := [entC]
              config := { canonical := "http://example.org", version := "0.1.0" } } }

/-- Exporter state already holding the in-progress parent artifact. -/
def stC : ExpState := { profiles := [inProgressParent] }

/-- An already-published extension whose id collides with the profile
about to be exported (a cross-partition duplicate). -/
def extDup : Artifact :=
  { id := "dup"
    name := "E0"
    url := "http://example.org/StructureDefinition/E0"
    version := "0.1.0"
    status := "active"
    kind := "complex-type"
    type := "Extension"
    elements := [{ path := "", min := 0, max := "*" }] }

/-- A profile sharing its id with the published extension. -/
def entP5 : FshStructure :=
  { sdType := .profile, name := "P5", id := "dup", parent := "Patient" }

/-- Environment for the duplicate-id scenario. -/
def envC5 : Env :=
  { tank := { profiles := [entP5]
              config := { canonical := "http://example.org", version := "0.1.0" } }
    external := [("Patient", patientArt)] }

/-- Exporter state already holding the colliding extension. -/
def stC5 : ExpState := { extensions := [extDup] }

/-- The element skeleton of an Extension artifact. -/
def extSkel : Artifact :=
  { id := "MyExt"
    name := "MyExt"
    url := "http://example.org/StructureDefinition/MyExt"
    type := "Extension"
    kind := "complex-type"
    elements := [{ path := "", min := 0, max := "*" },
                 { path := "extension", min := 0, max := "*", type := [{ code := "Extension" }] },
                 { path := "url", min := 1, max := "1", type := [{ code := "uri" }] },
                 { path := "value[x]", min := 0, max := "1", type := [{ code := "string" }] }] }

/-- Environment declaring two standalone extensions `ExtX` and `ExtY`
with distinct ids (hence distinct canonical URLs). -/
def envC6 : Env :=
  { tank := { extensions := [{ sdType := .extension, name := "ExtX", id := "ext-x" },
                             { sdType := .extension, name := "ExtY", id := "ext-y" }]
              config := { canonical := "http://example.org", version := "0.1.0" } } }

/-- Declare slice `myext` of type `ExtX`, then re-declare it with the
same type. -/
def rulesXX : List FshRule :=
  [.containsRule "extension" [{ name := "myext", type := some "ExtX" }],
   .containsRule "extension" [{ name := "myext", type := some "ExtX" }]]

/-- Declare slice `myext` of type `ExtX`, then re-declare it with the
different type `ExtY`. -/
def rulesXY : List FshRule :=
  [.containsRule "extension" [{ name := "myext", type := some "ExtX" }],
   .containsRule "extension" [{ name := "myext", type := some "ExtY" }]]

/-- A profile-shaped artifact with a `value` element to attach
invariants to. -/
def sdC4 : Artifact :=
  { id := "P4"
    name := "P4"
    url := "http://example.org/StructureDefinition/P4"
    type := "Patient"
    kind := "resource"
    elements := [{ path := "", min := 0, max := "*" },
                 { path := "value", min := 0, max := "1", type := [{ code := "string" }] }] }

/-- Environment declaring one invariant with an invalid formal
identifier (`bad id!`) and one with a valid identifier (`inv-1`). -/
def envC4 : Env :=
  { tank := { invariants :=
                [{ name := "bad id!", description := "desc"
                   expression := some "expr", severity := "error" },
                 { name := "inv-1", description := "desc2"
                   expression := some "expr2", severity := "warning" }]
              config := { canonical := "http://example.org", version := "0.1.0" } } }

/-- The preprocessing map state while only extension-slot rules have
been seen: empty, or marking `value[x]` for 0..0 inference. -/
def extInferState (b : Bool) : List (String × Bool) :=
  if b then [("value[x]", true)] else []

/-- The preprocessing map state while only value-slot rules have been
seen: empty, or marking `extension` for 0..0 inference. -/
def valInferState (b : Bool) : List (String × Bool) :=
  if b then [("extension", true)] else []

/-- Is the rule a single-segment path exercising the `extension` slot? -/
def isSingleExtSegment (r : FshRule) : Bool :=
  match splitOnPathPeriods r.path with
  | [s] => strStartsWith s "extension"
  | _ => false

/-- Is the rule a single-segment path exercising the `value` slot? -/
def isSingleValSegment (r : FshRule) : Bool :=
  match splitOnPathPeriods r.path with
  | [s] => strStartsWith s "value"
  | _ => false

/-- Claim-side description: the value of the last `AssignmentRule` on
path `url` whose value is a string. -/
def lastStringUrlAssignment (rules : List FshRule) : Option String :=
  rules.reverse.findSome? (fun r =>
    match r with
    | .assignment p (.str s) _ _ => if p == "url" then some s else none
    | _ => none)

/-- Does the rule list contain no insert rules? -/
def hasNoInsertRules (rules : List FshRule) : Bool :=
  rules.all (fun r =>
    match r with
    | .insertRule _ => false
    | _ => true)

/-- A definitional instance with two successive `url` assignments. -/
def instM : FshInstance :=
  { name := "M"
    id := "m"
    instanceOf := "StructureDefinition"
    usage := "Definition"
    rules := [.assignment "url" (.str "http://u1") false false,
              .assignment "url" (.str "http://u2") false false] }

/-- A tank declaring only `instM`. -/
def tankM : FSHTank :=
  { instances := [instM]
    config := { canonical := "http://example.org", version := "0.1.0" } }

/-! ## Theorems -/

theorem fishOne_profile_eq (tank : FSHTank) (base : String) (version : Option String) :
    fishOne tank base version .profile =
      orFirst ((tank.profiles.find? (structMatches tank.config base version)).map .profileR)
        ((tank.instances.find? (profileInstanceMatches tank.config base version)).map .instR) := by
  cases h : tank.profiles.find? (structMatches tank.config base version) <;>
    simp [fishOne, orFirst, h]

theorem fishOne_extension_eq (tank : FSHTank) (base : String) (version : Option String) :
    fishOne tank base version .extension =
      orFirst ((tank.extensions.find? (structMatches tank.config base version)).map .extensionR)
        ((tank.instances.find? (extensionInstanceMatches tank.config base version)).map .instR) := by
  cases h : tank.extensions.find? (structMatches tank.config base version) <;>
    simp [fishOne, orFirst, h]

theorem fishOne_logical_eq (tank : FSHTank) (base : String) (version : Option String) :
    fishOne tank base version .logical =
      orFirst ((tank.logicals.find? (structMatches tank.config base version)).map .logicalR)
        ((tank.instances.find? (logicalInstanceMatches tank.config base version)).map .instR) := by
  cases h : tank.logicals.find? (structMatches tank.config base version) <;>
    simp [fishOne, orFirst, h]

theorem fishOne_resource_eq (tank : FSHTank) (base : String) (version : Option String) :
    fishOne tank base version .resource =
      orFirst ((tank.resources.find? (structMatches tank.config base version)).map .resourceR)
        ((tank.instances.find? (resourceInstanceMatches tank.config base version)).map .instR) := by
  cases h : tank.resources.find? (structMatches tank.config base version) <;>
    simp [fishOne, orFirst, h]

theorem fishOne_valueSet_eq (tank : FSHTank) (base : String) (version : Option String) :
    fishOne tank base version .valueSet =
      orFirst ((tank.valueSets.find? (vsMatches tank.config base version)).map .valueSetR)
        ((tank.instances.find? (vsInstanceMatches tank.config base version)).map .instR) := by
  cases h : tank.valueSets.find? (vsMatches tank.config base version) <;>
    simp [fishOne, orFirst, h]

theorem fishOne_codeSystem_eq (tank : FSHTank) (base : String) (version : Option String) :
    fishOne tank base version .codeSystem =
      orFirst ((tank.codeSystems.find? (csMatches tank.config base version)).map .codeSystemR)
        ((tank.instances.find? (csInstanceMatches tank.config base version)).map .instR) := by
  cases h : tank.codeSystems.find? (csMatches tank.config base version) <;>
    simp [fishOne, orFirst, h]

theorem fishLoop_cons (tank : FSHTank) (base : String) (version : Option String)
    (t : FishType) (ts : List FishType) :
    fishLoop tank base version (t :: ts) =
      match fishOne tank base version t with
      | some r => some r
      | none => fishLoop tank base version ts := rfl

/-- C8: called with an empty expected-kinds list, `FSHTank.fish` searches
kinds in exactly the order Profile, Extension, Logical, Resource,
ValueSet, CodeSystem, Instance, Invariant, RuleSet, Mapping and
returns the first match; within each structure-definition kind it
matches declared entities (on name, id, or derived canonical URL, and
on version when a `|version` suffix is supplied) before declared
definitional Instances whose assignment rules declare that kind. -/
theorem C8_fish_resolution_order (tank : FSHTank) (item : String) :
    FSHTank.fish tank item [] = fishSpecOrdered tank item := by
  unfold FSHTank.fish fishSpecOrdered
  simp only [List.isEmpty_nil, if_true, allFishTypes]
  rw [fishLoop_cons, fishOne_profile_eq]
  cases orFirst ((tank.profiles.find? _).map _) ((tank.instances.find? _).map _) <;>
    simp only [firstSome]
  · rw [fishLoop_cons, fishOne_extension_eq]
    cases orFirst ((tank.extensions.find? _).map _) ((tank.instances.find? _).map _) <;>
      simp only [firstSome]
    · rw [fishLoop_cons, fishOne_logical_eq]
      cases orFirst ((tank.logicals.find? _).map _) ((tank.instances.find? _).map _) <;>
        simp only [firstSome]
      · rw [fishLoop_cons, fishOne_resource_eq]
        cases orFirst ((tank.resources.find? _).map _) ((tank.instances.find? _).map _) <;>
          simp only [firstSome]
        · rw [fishLoop_cons, fishOne_valueSet_eq]
          cases orFirst ((tank.valueSets.find? _).map _) ((tank.instances.find? _).map _) <;>
            simp only [firstSome]
          · rw [fishLoop_cons, fishOne_codeSystem_eq]
            cases orFirst ((tank.codeSystems.find? _).map _) ((tank.instances.find? _).map _) <;>
              simp only [firstSome]
            · simp only [fishLoop, fishOne, firstSome]

/-- C1 (counterexample): exporting the concrete profile `P` once
publishes its artifact, but invoking `exportStructDef` a second time
for the same entity returns no artifact at all (the source's bare
`return;`), not the cached artifact reference the claim asserts. -/
theorem C1_counterexample :
    (exportStructDef 3 envP (exportStructDef 3 envP {} entP).2 entP).1 = Except.ok none ∧
    (exportStructDef 3 envP {} entP).1 ≠ Except.ok none := by
  constructor
  · rfl
  · decide

/-- C1 (amended): invoking `exportStructDef` again for an entity whose
name is already published in any partition is a no-op — the state is
returned unchanged and the call returns no artifact (undefined), not
the cached artifact reference; the artifact published by the first
call simply remains in the output collection. -/
theorem C1_export_second_call_noop (fuel : Nat) (env : Env) (st : ExpState)
    (e : FshStructure) (h : alreadyExported st e = true) :
    exportStructDef (fuel + 1) env st e = (.ok none, st) := by
  simp only [exportStructDef, h, if_true]

/-- Witness for `C1_export_second_call_noop` at the concrete profile `P`
after its first export. -/
theorem C1_witness :
    alreadyExported (exportStructDef 3 envP {} entP).2 entP = true ∧
    exportStructDef 3 envP (exportStructDef 3 envP {} entP).2 entP =
      (.ok none, (exportStructDef 3 envP {} entP).2) :=
  ⟨rfl, C1_export_second_call_noop 2 envP (exportStructDef 3 envP {} entP).2 entP rfl⟩

/-- C4 (counterexample): resolving an `ObeysRule` to the invariant
`bad id!`, whose identifier fails the formal-identifier syntax, still
attaches the constraint to the target element (the source attaches
before validating the identifier) and then reports the
`InvalidFHIRIdError`; the claim's "the constraint is not attached" is
false. -/
theorem C4_counterexample :
    idRegexTest "bad id!" = false ∧
    (setRules envC4 {} .profile "P4" sdC4 [.obeys "value" "bad id!"]).1.elements.find?
        (fun e => e.path == "value") =
      some { path := "value", min := 0, max := "1", type := [{ code := "string" }]
             constraint := [{ key := "bad id!", human := "desc", expression := some "expr"
                              severity := "error"
                              source := "http://example.org/StructureDefinition/P4" }] } ∧
    (setRules envC4 {} .profile "P4" sdC4 [.obeys "value" "bad id!"]).2.1 =
      [⟨.error, .caught (.invalidFHIRId "bad id!")⟩] :=
  ⟨rfl, rfl, rfl⟩

theorem find?_map_update (l : List Element) (p : String) (f : Element → Element)
    (hf : ∀ x, (f x).path = x.path) :
    (l.map (fun x => if x.path == p then f x else x)).find? (fun x => x.path == p) =
      (l.find? (fun x => x.path == p)).map f := by
  induction l with
  | nil => rfl
  | cons x xs ih =>
    simp only [List.map_cons]
    cases hx : (x.path == p) with
    | true =>
      rw [show (if true = true then f x else x) = f x from rfl,
          show List.find? (fun y => y.path == p)
              (f x :: xs.map (fun y => if y.path == p then f y else y)) = some (f x) from
            List.find?_cons_of_pos _ (by rw [hf x]; exact hx),
          show List.find? (fun y => y.path == p) (x :: xs) = some x from
            List.find?_cons_of_pos _ hx]
      rfl
    | false =>
      rw [show (if false = true then f x else x) = x from rfl,
          show List.find? (fun y => y.path == p)
              (x :: xs.map (fun y => if y.path == p then f y else y)) =
              List.find? (fun y => y.path == p)
                (xs.map (fun y => if y.path == p then f y else y)) from
            List.find?_cons_of_neg _ (by simp [hx]),
          show List.find? (fun y => y.path == p) (x :: xs) =
              List.find? (fun y => y.path == p) xs from
            List.find?_cons_of_neg _ (by simp [hx]), ih]

theorem findElementByPath_update (sd : Artifact) (p : String) (f : Element → Element)
    (hp : (p == "") = false) (hf : ∀ x, (f x).path = x.path) :
    findElementByPath (updateElementAt sd p f) p = (findElementByPath sd p).map f := by
  unfold findElementByPath updateElementAt
  rw [hp]
  simp only [Bool.false_eq_true, if_false]
  exact find?_map_update sd.elements p f hf

theorem setRules_single_obeys (env : Env) (st : ExpState) (fshKind : SDType)
    (defName : String) (sd : Artifact) (path invName : String) (el : Element)
    (inv : FshInvariant)
    (hel : findElementByPath sd path = some el)
    (hinv : FSHTank.fish env.tank invName [.invariant] = some (.invariantR inv)) :
    setRules env st fshKind defName sd [.obeys path invName] =
      (updateElementAt sd el.path (fun x =>
        { x with constraint := x.constraint ++
            [{ key := inv.name, human := inv.description, expression := inv.expression,
               severity := inv.severity, source := sd.url }] }),
       (if idRegexTest inv.name then [] else
         [⟨.error, .caught (.invalidFHIRId inv.name)⟩]),
       []) := by
  unfold setRules applySdRule
  simp only [List.filter, List.foldl, FshRule.path]
  rw [hel, hinv]
  cases hid : idRegexTest inv.name <;> simp [hid]

/-- C4 (amended): when an `ObeysRule` resolves its invariant, the
constraint (key, human description, expression, severity) is attached
to the target element tagged with the artifact's own canonical URL as
its source; when the invariant's identifier fails the
formal-identifier syntax an `InvalidFHIRIdError` is additionally
reported (non-fatally) — the constraint remains attached either
way. -/
theorem C4_obeys_attachment (env : Env) (st : ExpState) (fshKind : SDType)
    (defName : String) (sd : Artifact) (path invName : String) (el : Element)
    (inv : FshInvariant)
    (hpath : path ≠ "")
    (hel : findElementByPath sd path = some el)
    (hinv : FSHTank.fish env.tank invName [.invariant] = some (.invariantR inv)) :
    findElementByPath (setRules env st fshKind defName sd [.obeys path invName]).1 path =
      some { el with constraint := el.constraint ++
        [{ key := inv.name, human := inv.description, expression := inv.expression,
           severity := inv.severity, source := sd.url }] } ∧
    (setRules env st fshKind defName sd [.obeys path invName]).2.1 =
      (if idRegexTest inv.name then [] else
        [⟨.error, .caught (.invalidFHIRId inv.name)⟩]) := by
  have hpb : (path == "") = false := by
    simp [hpath]
  have hfind : sd.elements.find? (fun x => x.path == path) = some el := by
    have h := hel
    unfold findElementByPath at h
    rw [hpb] at h
    simpa using h
  have hep : el.path = path := by
    have h := List.find?_some hfind
    simpa using h
  rw [setRules_single_obeys env st fshKind defName sd path invName el inv hel hinv]
  refine ⟨?_, rfl⟩
  conv_lhs => rw [hep]
  rw [findElementByPath_update sd path (fun x =>
    { x with constraint := x.constraint ++
        [{ key := inv.name, human := inv.description, expression := inv.expression,
           severity := inv.severity, source := sd.url }] }) hpb (fun x => rfl)]
  rw [hel]
  rfl

/-- Witness for `C4_obeys_attachment` at the concrete valid invariant
`inv-1` on element `value`. -/
theorem C4_witness :
    findElementByPath (setRules envC4 {} .profile "P4" sdC4 [.obeys "value" "inv-1"]).1
        "value" =
      some { path := "value", min := 0, max := "1", type := [{ code := "string" }]
             constraint := [{ key := "inv-1", human := "desc2", expression := some "expr2"
                              severity := "warning"
                              source := "http://example.org/StructureDefinition/P4" }] } ∧
    (setRules envC4 {} .profile "P4" sdC4 [.obeys "value" "inv-1"]).2.1 = [] := by
  have h := C4_obeys_attachment envC4 {} .profile "P4" sdC4 "value" "inv-1"
    { path := "value", min := 0, max := "1", type := [{ code := "string" }] }
    { name := "inv-1", description := "desc2", expression := some "expr2"
      severity := "warning" }
    (by decide) rfl rfl
  exact ⟨h.1, by simpa using h.2⟩

/-- C6: declaring a standalone extension slice `myext` with type `ExtX`
and re-declaring the identical slice name with the same type produces
exactly one slice and a warning (the duplicate-slice error is
downgraded because the existing slice's profile already carries the
same extension URL); re-declaring it with the different type `ExtY`
produces exactly one slice and an error. -/
theorem C6_extension_contains_redeclaration :
    (getSlices (setRules envC6 {} .extension "MyExt" extSkel rulesXX).1 "extension").length = 1 ∧
    (setRules envC6 {} .extension "MyExt" extSkel rulesXX).2.1 =
      [⟨.warn, .caught (.duplicateSlice "myext" "extension")⟩] ∧
    (getSlices (setRules envC6 {} .extension "MyExt" extSkel rulesXY).1 "extension").length = 1 ∧
    (setRules envC6 {} .extension "MyExt" extSkel rulesXY).2.1 =
      [⟨.error, .caught (.duplicateSlice "myext" "extension")⟩] :=
  ⟨rfl, rfl, rfl, rfl⟩

theorem getStructureDefinitionPre_self (e : FshStructure)
    (hParent : e.parent ≠ "")
    (hSelf : e.name = e.parent ∨ e.id = e.parent) :
    getStructureDefinitionPre e =
      .error (if e.name == e.parent then ExpError.parentDeclaredAsName e.name
              else ExpError.parentDeclaredAsId e.name e.id) := by
  have hpb : (e.parent == "") = false := by simp [hParent]
  unfold getStructureDefinitionPre
  rw [hpb]
  simp only [Bool.false_eq_true, if_false, Bool.false_and]
  cases hn : (e.name == e.parent) with
  | true => simp [hn]
  | false =>
    have hid : e.id = e.parent := by
      rcases hSelf with h | h
      · exact absurd h (by simpa using hn)
      · exact h
    simp [hn, hid]

/-- C7: an entity whose declared parent equals its own name or its own id
fails with the corresponding structural declaration error
(`ParentDeclaredAsName`/`ParentDeclaredAsId`), raised before the
artifact skeleton is created: the exporter state is returned completely
unchanged, so zero artifacts are published into any partition. -/
theorem C7_self_parent_fatal (fuel : Nat) (env : Env) (st : ExpState)
    (e : FshStructure)
    (hEarly : alreadyExported st e = false)
    (hParent : e.parent ≠ "")
    (hSelf : e.name = e.parent ∨ e.id = e.parent) :
    exportStructDef (fuel + 1) env st e =
      (.error (if e.name == e.parent then ExpError.parentDeclaredAsName e.name
               else ExpError.parentDeclaredAsId e.name e.id), st) := by
  simp only [exportStructDef, hEarly, Bool.false_eq_true, if_false]
  rw [getStructureDefinitionPre_self e hParent hSelf]

/-- Witness for `C7_self_parent_fatal`: a profile declaring itself (by
name) as its parent fails with `ParentDeclaredAsName` and publishes
nothing. -/
theorem C7_witness :
    exportStructDef 1 { tank := { profiles := [{ sdType := .profile, name := "S"
                                                 id := "s", parent := "S" }] } } {}
        { sdType := .profile, name := "S", id := "s", parent := "S" } =
      (.error (ExpError.parentDeclaredAsName "S"), ({} : ExpState)) := by
  have h := C7_self_parent_fatal 0
    { tank := { profiles := [{ sdType := .profile, name := "S", id := "s", parent := "S" }] } }
    {} { sdType := .profile, name := "S", id := "s", parent := "S" }
    rfl (by decide) (Or.inl rfl)
  simpa using h

/-- C5 (counterexample): exporting the profile `P5` (id `dup`) while the
extensions partition already holds an artifact with id `dup` reports
the duplicate-id error even though no other artifact in the profile's
own partition shares the id — the check is not restricted to the
artifact's own kind-partition. -/
theorem C5_counterexample :
    (⟨.error, .duplicateId "dup"⟩ : Diag) ∈ (exportStructDef 3 envC5 stC5 entP5).2.log ∧
    ((exportStructDef 3 envC5 stC5 entP5).2.profiles.filter
        (fun p => p.id == "dup")).length = 1 := by
  constructor
  · decide
  · rfl

/-- C5 (amended): the post-publication duplicate-id check scans all
three partitions (profiles, extensions, and logicals) and flags
exactly the existence of a distinct artifact anywhere among them
sharing the identifier; the report is a non-fatal error and the
artifact remains published, as the concrete cross-partition scenario
shows. -/
theorem C5_duplicate_id_check :
    (∀ (st : ExpState) (a : Artifact),
      dupIdCheck st a = true ↔
        ∃ b, (b ∈ st.profiles ∨ b ∈ st.extensions ∨ b ∈ st.logicals) ∧
          a.id = b.id ∧ a ≠ b) ∧
    (⟨.error, .duplicateId "dup"⟩ : Diag) ∈ (exportStructDef 3 envC5 stC5 entP5).2.log ∧
    (exportStructDef 3 envC5 stC5 entP5).2.profiles.any (fun p => p.id == "dup") = true := by
  refine ⟨?_, by decide, rfl⟩
  intro st a
  unfold dupIdCheck
  simp only [Bool.or_eq_true, List.any_eq_true, Bool.and_eq_true, beq_iff_eq,
    Bool.not_eq_true', beq_eq_false_iff_ne, ne_eq]
  constructor
  · rintro ((⟨b, hb, hid, hne⟩ | ⟨b, hb, hid, hne⟩) | ⟨b, hb, hid, hne⟩)
    · exact ⟨b, Or.inl hb, hid, hne⟩
    · exact ⟨b, Or.inr (Or.inl hb), hid, hne⟩
    · exact ⟨b, Or.inr (Or.inr hb), hid, hne⟩
  · rintro ⟨b, hb | hb | hb, hid, hne⟩
    · exact Or.inl (Or.inl ⟨b, hb, hid, hne⟩)
    · exact Or.inl (Or.inr ⟨b, hb, hid, hne⟩)
    · exact Or.inr ⟨b, hb, hid, hne⟩

/-- Witness for `C5_duplicate_id_check` (its universally quantified
first part) at a concrete state: an artifact with id `dup` is flagged
against the published extension `extDup` sitting in a different
partition. -/
theorem C5_witness :
    dupIdCheck stC5 { id := "dup", name := "Other" } = true :=
  (C5_duplicate_id_check.1 stC5 { id := "dup", name := "Other" }).mpr
    ⟨extDup, Or.inr (Or.inl (by decide)), rfl, by decide⟩

/-- C9: for every compiled entity the artifact's `baseDefinition` equals
the parent structure definition's canonical URL as saved before any
metadata mutation, its `derivation` is `"specialization"` for a
Logical entity and `"constraint"` otherwise, and for a Logical entity
the root structural `type` is overwritten to the entity's own id
(otherwise the parent's type is kept). -/
theorem C9_setMetadata_inheritance (cfg : Config) (sd : Artifact) (e : FshStructure) :
    (setMetadata cfg sd e).baseDefinition = some sd.url ∧
    (setMetadata cfg sd e).derivation =
      some (if e.sdType == .logical then "specialization" else "constraint") ∧
    (setMetadata cfg sd e).type = (if e.sdType == .logical then e.id else sd.type) := by
  unfold setMetadata
  cases e.title <;> cases e.description <;>
    simp only [updateRootElement, updateElementAt] <;>
    split <;> simp_all <;> split <;> simp_all <;> split <;> simp_all

theorem exportStructDef_parent_error (n : Nat) (env : Env) (st : ExpState)
    (e pe : FshStructure) (pn : String) (err : ExpError) (st' : ExpState)
    (h1 : alreadyExported st e = false)
    (h2 : getStructureDefinitionPre e = .ok pn)
    (h3 : fisherFishForFHIR env st pn [] = none)
    (h4 : FSHTank.fish env.tank pn [.profile, .extension, .logical] = some (.profileR pe))
    (h5 : exportStructDef n env st pe = (.error err, st')) :
    exportStructDef (n + 1) env st e = (.error err, st') := by
  simp only [exportStructDef, h1, Bool.false_eq_true, if_false, h2, h3, h4, h5]

/-- C3 (counterexample): for the concrete mutually-parented pair `A`
(parent `B`) and `B` (parent `A`), compilation never reaches the
point where a skeleton is published: resolving either parent re-enters
the export of the other before anything is pushed, so at every
recursion depth the run exhausts the depth with the state unchanged —
neither entity compiles and neither artifact is published, contradicting
the claim that both compile with warnings. -/
theorem C3_counterexample : mutualParentsDiverge := by
  intro n
  induction n with
  | zero => exact ⟨rfl, rfl⟩
  | succ k ih =>
    exact ⟨exportStructDef_parent_error k envAB {} entA entB "B" .stackOverflow {}
             rfl rfl rfl rfl ih.2,
           exportStructDef_parent_error k envAB {} entB entA "A" .stackOverflow {}
             rfl rfl rfl rfl ih.1⟩

theorem setMetadata_type (cfg : Config) (sd : Artifact) (e : FshStructure) :
    (setMetadata cfg sd e).type = (if e.sdType == .logical then e.id else sd.type) := by
  unfold setMetadata
  cases e.title <;> cases e.description <;>
    simp only [updateRootElement, updateElementAt] <;>
    split <;> simp_all <;> split <;> simp_all <;> split <;> simp_all

theorem setMetadata_kind (cfg : Config) (sd : Artifact) (e : FshStructure) :
    (setMetadata cfg sd e).kind = (if e.sdType == .logical then "logical" else sd.kind) := by
  unfold setMetadata
  cases e.title <;> cases e.description <;>
    simp only [updateRootElement, updateElementAt] <;>
    split <;> simp_all <;> split <;> simp_all <;> split <;> simp_all

theorem setMetadata_name (cfg : Config) (sd : Artifact) (e : FshStructure) :
    (setMetadata cfg sd e).name = e.name := by
  unfold setMetadata
  cases e.title <;> cases e.description <;>
    simp only [updateRootElement, updateElementAt] <;>
    split <;> simp_all <;> split <;> simp_all <;> split <;> simp_all

theorem setMetadata_inProgress (cfg : Config) (sd : Artifact) (e : FshStructure) :
    (setMetadata cfg sd e).inProgress = sd.inProgress := by
  unfold setMetadata
  cases e.title <;> cases e.description <;>
    simp only [updateRootElement, updateElementAt] <;>
    split <;> simp_all <;> split <;> simp_all <;> split <;> simp_all

theorem map_replace_of_no_match (l : List Artifact) (nm : String) (a : Artifact)
    (h : l.any (fun p => p.name == nm) = false) :
    l.map (fun p => if p.name == nm then a else p) = l := by
  induction l with
  | nil => rfl
  | cons x xs ih =>
    simp only [List.any_cons, Bool.or_eq_false_iff] at h
    simp only [List.map_cons, ih h.2]
    rw [if_neg (by simp [h.1])]

theorem pushArtifact_log (st : ExpState) (a : Artifact) :
    (pushArtifact st a).log = st.log := by
  unfold pushArtifact
  split
  · rfl
  · split <;> rfl

theorem pushArtifact_deferred (st : ExpState) (a : Artifact) :
    (pushArtifact st a).deferred = st.deferred := by
  unfold pushArtifact
  split
  · rfl
  · split <;> rfl

theorem pushArtifact_profiles_of (st : ExpState) (a : Artifact)
    (hT : (a.type == "Extension") = false) (hK : (a.kind == "logical") = false) :
    (pushArtifact st a).profiles = st.profiles ++ [a] := by
  unfold pushArtifact
  simp [hT, hK]

theorem replaceArtifact_log (st : ExpState) (nm : String) (a : Artifact) :
    (replaceArtifact st nm a).log = st.log := rfl

theorem replaceArtifact_profiles (st : ExpState) (nm : String) (a : Artifact) :
    (replaceArtifact st nm a).profiles =
      st.profiles.map (fun p => if p.name == nm then a else p) := rfl

theorem expandInsertRules_nil (tank : FSHTank) : expandInsertRules tank [] = [] := rfl

theorem preprocessStructureDefinition_nil (b : Bool) (nm : String) :
    preprocessStructureDefinition b nm [] = ([], []) := rfl

theorem setRules_nil (env : Env) (st : ExpState) (k : SDType) (nm : String)
    (sd : Artifact) : setRules env st k nm sd [] = (sd, [], []) := rfl

/-- C3 (amended): when compilation of an entity begins while its
parent-derived artifact (resolved by the fisher, e.g. from the
published collection) already carries the `inProgress` flag, a
non-fatal warning that the definition may be incomplete is emitted and
compilation proceeds rather than failing: the artifact is returned,
published into the profiles partition (the skeleton having been pushed
before rule application), and its `inProgress` flag is cleared on
completion.  (The guard does not make two directly mutually-parented
declared entities compile — see the counterexample — because their
parent resolution recurses before any skeleton is published.) -/
theorem C3_cycle_guard (n : Nat) (env : Env) (st : ExpState) (e : FshStructure)
    (pn : String) (pa : Artifact)
    (h0 : e.sdType = .profile)
    (h1 : e.rules = [])
    (h2 : alreadyExported st e = false)
    (h3 : getStructureDefinitionPre e = .ok pn)
    (h4 : fisherFishForFHIR env st pn [] = some pa)
    (h5 : pa.inProgress = true)
    (h6 : (pa.kind == "logical") = false)
    (h7 : (pa.type == "Extension") = false) :
    ∃ a st', exportStructDef (n + 1) env st e = (.ok (some a), st') ∧
      (⟨.warn, .circular e.name pn⟩ : Diag) ∈ st'.log ∧
      a.inProgress = false ∧
      a ∈ st'.profiles := by
  have hpost : getStructureDefinitionPost e pn (some pa) = .ok pa := by
    unfold getStructureDefinitionPost
    simp [h0, h6, h7]
  have hT2 : ((setMetadata env.tank.config { pa with inProgress := true } e).type ==
      "Extension") = false := by
    rw [setMetadata_type]
    simpa [h0] using h7
  have hK2 : ((setMetadata env.tank.config { pa with inProgress := true } e).kind ==
      "logical") = false := by
    rw [setMetadata_kind]
    simpa [h0] using h6
  have hN2 : (setMetadata env.tank.config { pa with inProgress := true } e).name = e.name :=
    setMetadata_name _ _ _
  have hprof : st.profiles.any (fun p => p.name == e.name) = false := by
    unfold alreadyExported at h2
    simp only [Bool.or_eq_false_iff] at h2
    exact h2.1.1
  simp only [exportStructDef, h2, Bool.false_eq_true, if_false, h3, h4, hpost, h5,
    if_true, h1, expandInsertRules_nil, preprocessStructureDefinition_nil,
    setRules_nil, List.append_nil]
  refine ⟨_, _, rfl, ?_, ?_, ?_⟩
  · split <;>
      simp [replaceArtifact_log, pushArtifact_log, List.mem_append]
  · rfl
  · split
    all_goals
      simp only [replaceArtifact_profiles, hN2]
      rw [pushArtifact_profiles_of _ _ hT2 hK2]
      simp only [List.map_append, List.map_cons, List.map_nil]
      rw [map_replace_of_no_match st.profiles e.name _ hprof]
      simp [hN2]


/-- Witness for `C3_cycle_guard`: the concrete profile `C` whose parent
`Base` sits in the published collection with `inProgress` set compiles
with the circular-dependency warning, is published, and ends with the
flag cleared. -/
theorem C3_witness :
    ∃ a st', exportStructDef 3 envC stC entC = (.ok (some a), st') ∧
      (⟨.warn, .circular entC.name "Base"⟩ : Diag) ∈ st'.log ∧
      a.inProgress = false ∧ a ∈ st'.profiles :=
  C3_cycle_guard 2 envC stC entC "Base" inProgressParent rfl rfl rfl rfl rfl rfl rfl rfl

theorem preprocessRule_ext_step (name : String) (r : FshRule) (s : String)
    (b : Bool) (ds : List Diag)
    (hsplit : splitOnPathPeriods r.path = [s])
    (hval : strStartsWith s "value" = false)
    (hcard : strStartsWith s "extension" = true → isCardMaxZero r = false) :
    preprocessRule true name (extInferState b, ds) r =
      (extInferState (b || strStartsWith s "extension"), ds) := by
  cases hse : strStartsWith s "extension" with
  | true =>
    have hc := hcard hse
    cases b <;>
      simp [preprocessRule, hsplit, preprocessPart, mapGetB, mapSetB, lookupAssoc,
        extInferState, hse, hc, joinDot, List.enum, List.enumFrom]
  | false =>
    cases b <;>
      simp [preprocessRule, hsplit, preprocessPart, mapGetB, mapSetB, lookupAssoc,
        extInferState, hse, hval, joinDot, List.enum, List.enumFrom]

theorem preprocess_fold_ext (name : String) (rs : List FshRule)
    (h : ∀ r ∈ rs, ∃ s, splitOnPathPeriods r.path = [s] ∧
        strStartsWith s "value" = false ∧
        (strStartsWith s "extension" = true → isCardMaxZero r = false)) :
    ∀ b ds, rs.foldl (preprocessRule true name) (extInferState b, ds) =
      (extInferState (b || rs.any isSingleExtSegment), ds) := by
  induction rs with
  | nil => intro b ds; simp
  | cons r rs ih =>
    intro b ds
    obtain ⟨s, hsplit, hval, hcard⟩ := h r (by simp)
    rw [List.foldl_cons, preprocessRule_ext_step name r s b ds hsplit hval hcard,
        ih (fun r hr => h r (by simp [hr])) _ ds]
    have hone : isSingleExtSegment r = strStartsWith s "extension" := by
      simp [isSingleExtSegment, hsplit]
    simp [hone, Bool.or_assoc]

theorem preprocessRule_val_step (name : String) (r : FshRule) (s : String)
    (b : Bool) (ds : List Diag)
    (hsplit : splitOnPathPeriods r.path = [s])
    (hext : strStartsWith s "extension" = false)
    (hcard : strStartsWith s "value" = true → isCardMaxZero r = false) :
    preprocessRule true name (valInferState b, ds) r =
      (valInferState (b || strStartsWith s "value"), ds) := by
  cases hsv : strStartsWith s "value" with
  | true =>
    have hc := hcard hsv
    cases b <;>
      simp [preprocessRule, hsplit, preprocessPart, mapGetB, mapSetB, lookupAssoc,
        valInferState, hext, hsv, hc, joinDot, List.enum, List.enumFrom]
  | false =>
    cases b <;>
      simp [preprocessRule, hsplit, preprocessPart, mapGetB, mapSetB, lookupAssoc,
        valInferState, hext, hsv, joinDot, List.enum, List.enumFrom]

theorem preprocess_fold_val (name : String) (rs : List FshRule)
    (h : ∀ r ∈ rs, ∃ s, splitOnPathPeriods r.path = [s] ∧
        strStartsWith s "extension" = false ∧
        (strStartsWith s "value" = true → isCardMaxZero r = false)) :
    ∀ b ds, rs.foldl (preprocessRule true name) (valInferState b, ds) =
      (valInferState (b || rs.any isSingleValSegment), ds) := by
  induction rs with
  | nil => intro b ds; simp
  | cons r rs ih =>
    intro b ds
    obtain ⟨s, hsplit, hext, hcard⟩ := h r (by simp)
    rw [List.foldl_cons, preprocessRule_val_step name r s b ds hsplit hext hcard,
        ih (fun r hr => h r (by simp [hr])) _ ds]
    have hone : isSingleValSegment r = strStartsWith s "value" := by
      simp [isSingleValSegment, hsplit]
    simp [hone, Bool.or_assoc]

theorem preprocessRule_val_contra (name : String) (r : FshRule) (s : String)
    (ds : List Diag)
    (hsplit : splitOnPathPeriods r.path = [s])
    (hext : strStartsWith s "extension" = false)
    (hval : strStartsWith s "value" = true)
    (hcard : isCardMaxZero r = false) :
    preprocessRule true name ([("value[x]", true)], ds) r =
      ([("value[x]", false)], ds ++ [⟨.error, .valueAndSubExtensions name⟩]) := by
  simp [preprocessRule, hsplit, preprocessPart, mapGetB, mapSetB, lookupAssoc,
    hext, hval, hcard, joinDot, List.enum, List.enumFrom]

/-- C2 (counterexample): when both slots are exercised with non-zero
cardinality on the same base path, a `value[x] 0..0` rule can still be
synthesized, contradicting the claim's "no 0..0 rule is synthesized
for that path": after the extension-then-value contradiction is
detected (and the error reported), a further rule on the extension
slot re-marks `value[x]` in the inference map — its contradictory key
`extension` was never set — so preprocessing appends
`CardRule value[x] 0..0` anyway. -/
theorem C2_counterexample :
    preprocessStructureDefinition true "E"
        [.containsRule "extension" [{ name := "a" }], .card "value[x]" 1 "1",
         .containsRule "extension" [{ name := "b" }]] =
      ([.containsRule "extension" [{ name := "a" }], .card "value[x]" 1 "1",
        .containsRule "extension" [{ name := "b" }], .card "value[x]" 0 "0"],
       [⟨.error, .valueAndSubExtensions "E"⟩]) := rfl

/-- C2 (amended): for an Extension-kind entity, (i) when its rules
exercise only the extension slot (single-segment paths, none narrowing
`extension` to 0 and none on `value`), preprocessing appends exactly
one synthesized `CardRule` forcing `value[x]` to 0..0 and reports
nothing; (ii) symmetrically, rules exercising only the value slot
append a `CardRule` forcing `extension` to 0..0; (iii) when both slots
are exercised with non-zero cardinality on the same base path, the
"cannot have both a value and sub-extensions" error is reported and
the original rules are preserved unchanged (so they are still
applied); the contradiction cancels only the pending inference, so no
0..0 rule is synthesized when the contradicting value-slot rule is the
last rule to exercise a slot — a later extension-slot rule re-marks
the inference and a 0..0 rule is appended anyway (see the
counterexample). -/
theorem C2_preprocess_inferred_card_rules :
    (∀ (name : String) (rs : List FshRule),
      (∀ r ∈ rs, ∃ s, splitOnPathPeriods r.path = [s] ∧
          strStartsWith s "value" = false ∧
          (strStartsWith s "extension" = true → isCardMaxZero r = false)) →
      (∃ r ∈ rs, isSingleExtSegment r = true) →
      preprocessStructureDefinition true name rs =
        (rs ++ [.card "value[x]" 0 "0"], [])) ∧
    (∀ (name : String) (rs : List FshRule),
      (∀ r ∈ rs, ∃ s, splitOnPathPeriods r.path = [s] ∧
          strStartsWith s "extension" = false ∧
          (strStartsWith s "value" = true → isCardMaxZero r = false)) →
      (∃ r ∈ rs, isSingleValSegment r = true) →
      preprocessStructureDefinition true name rs =
        (rs ++ [.card "extension" 0 "0"], [])) ∧
    (∀ (name : String) (rs : List FshRule) (r2 : FshRule) (s2 : String),
      (∀ r ∈ rs, ∃ s, splitOnPathPeriods r.path = [s] ∧
          strStartsWith s "value" = false ∧
          (strStartsWith s "extension" = true → isCardMaxZero r = false)) →
      (∃ r ∈ rs, isSingleExtSegment r = true) →
      splitOnPathPeriods r2.path = [s2] → strStartsWith s2 "value" = true →
      strStartsWith s2 "extension" = false → isCardMaxZero r2 = false →
      preprocessStructureDefinition true name (rs ++ [r2]) =
        (rs ++ [r2], [⟨.error, .valueAndSubExtensions name⟩])) := by
  refine ⟨?_, ?_, ?_⟩
  · intro name rs h hex
    unfold preprocessStructureDefinition
    rw [show (([], []) : List (String × Bool) × List Diag) =
        (extInferState false, ([] : List Diag)) from rfl]
    rw [preprocess_fold_ext name rs h false []]
    have hany : rs.any isSingleExtSegment = true := by
      obtain ⟨r, hr, hone⟩ := hex
      exact List.any_eq_true.mpr ⟨r, hr, hone⟩
    rw [hany]
    simp [extInferState]
  · intro name rs h hex
    unfold preprocessStructureDefinition
    rw [show (([], []) : List (String × Bool) × List Diag) =
        (valInferState false, ([] : List Diag)) from rfl]
    rw [preprocess_fold_val name rs h false []]
    have hany : rs.any isSingleValSegment = true := by
      obtain ⟨r, hr, hone⟩ := hex
      exact List.any_eq_true.mpr ⟨r, hr, hone⟩
    rw [hany]
    simp [valInferState]
  · intro name rs r2 s2 h hex h2s h2v h2e h2c
    unfold preprocessStructureDefinition
    rw [show (([], []) : List (String × Bool) × List Diag) =
        (extInferState false, ([] : List Diag)) from rfl]
    rw [List.foldl_append, preprocess_fold_ext name rs h false []]
    have hany : rs.any isSingleExtSegment = true := by
      obtain ⟨r, hr, hone⟩ := hex
      exact List.any_eq_true.mpr ⟨r, hr, hone⟩
    rw [hany]
    rw [show extInferState (false || true) = [("value[x]", true)] from rfl]
    rw [List.foldl_cons, preprocessRule_val_contra name r2 s2 [] h2s h2e h2v h2c]
    simp

/-- Witness for `C2_preprocess_inferred_card_rules`, applying all three
parts at concrete rule lists: a `ContainsRule` on `extension` alone
infers `value[x] 0..0`; a `CardRule` on `value[x] 1..1` alone infers
`extension 0..0`; both together report the contradiction and infer
nothing. -/
theorem C2_witness :
    preprocessStructureDefinition true "E"
        [.containsRule "extension" [{ name := "a" }]] =
      ([.containsRule "extension" [{ name := "a" }], .card "value[x]" 0 "0"], []) ∧
    preprocessStructureDefinition true "E" [.card "value[x]" 1 "1"] =
      ([.card "value[x]" 1 "1", .card "extension" 0 "0"], []) ∧
    preprocessStructureDefinition true "E"
        [.containsRule "extension" [{ name := "a" }], .card "value[x]" 1 "1"] =
      ([.containsRule "extension" [{ name := "a" }], .card "value[x]" 1 "1"],
       [⟨.error, .valueAndSubExtensions "E"⟩]) := by
  refine ⟨?_, ?_, ?_⟩
  · exact C2_preprocess_inferred_card_rules.1 "E" _
      (by intro r hr; simp at hr; subst hr; exact ⟨"extension", by decide⟩)
      ⟨.containsRule "extension" [{ name := "a" }], by simp, by decide⟩
  · exact C2_preprocess_inferred_card_rules.2.1 "E" _
      (by intro r hr; simp at hr; subst hr; exact ⟨"value[x]", by decide⟩)
      ⟨.card "value[x]" 1 "1", by simp, by decide⟩
  · exact C2_preprocess_inferred_card_rules.2.2 "E"
      [.containsRule "extension" [{ name := "a" }]] (.card "value[x]" 1 "1") "value[x]"
      (by intro r hr; simp at hr; subst hr; exact ⟨"extension", by decide⟩)
      ⟨.containsRule "extension" [{ name := "a" }], by simp, by decide⟩
      (by decide) (by decide) (by decide) (by decide)

theorem expandInsertRules_id (tank : FSHTank) (rules : List FshRule)
    (h : hasNoInsertRules rules = true) : expandInsertRules tank rules = rules := by
  induction rules with
  | nil => rfl
  | cons r rs ih =>
    simp only [hasNoInsertRules, List.all_cons, Bool.and_eq_true] at h
    have hr := h.1
    have htl : expandInsertRules tank rs = rs := ih (by simp [hasNoInsertRules, h.2])
    cases r <;> simp_all [expandInsertRules]

theorem foldl_url_lastwins (rules : List FshRule) : ∀ acc : Option String,
    rules.foldl
      (fun acc r =>
        match r with
        | .assignment p (.str s) _ _ => if p == "url" then some s else acc
        | _ => acc)
      acc =
      (match lastStringUrlAssignment rules with
       | some s => some s
       | none => acc) := by
  induction rules with
  | nil => intro acc; rfl
  | cons r rs ih =>
    intro acc
    rw [List.foldl_cons, ih]
    unfold lastStringUrlAssignment
    rw [List.reverse_cons, List.findSome?_append]
    cases hrs : List.findSome? (fun r =>
        match r with
        | .assignment p (.str s) _ _ => if p == "url" then some s else none
        | _ => none) rs.reverse with
    | some s => simp [Option.or, lastStringUrlAssignment, hrs]
    | none =>
      simp only [lastStringUrlAssignment, hrs, Option.or]
      cases r with
      | assignment p v inst ex =>
        cases v with
        | str s =>
          cases hp : (p == "url") with
          | true => simp [List.findSome?, hp]
          | false => simp [List.findSome?, hp]
        | code sys c => simp [List.findSome?]
        | boolean b => simp [List.findSome?]
        | integer i => simp [List.findSome?]
      | card p mn mx => simp [List.findSome?]
      | caretValue p cp v i => simp [List.findSome?]
      | binding p vs st => simp [List.findSome?]
      | only p t => simp [List.findSome?]
      | containsRule p it => simp [List.findSome?]
      | obeys p i => simp [List.findSome?]
      | flag p a b c d e f => simp [List.findSome?]
      | addElement p mn mx t => simp [List.findSome?]
      | insertRule rs2 => simp [List.findSome?]

/-- C10: when the resolver resolves an item to a declared Instance (with
no insert rules to expand), the metadata projection is recomputed from
the instance's current rules on that query: its `url` is the value of
the last `AssignmentRule` on path `url` whose value is a string (a
later re-assignment overriding an earlier one), and `instanceUsage` is
the instance's declared usage. -/
theorem C10_instance_metadata (tank : FSHTank) (item : String) (inst : FshInstance)
    (hfish : FSHTank.fish tank item [] = some (.instR inst))
    (hins : hasNoInsertRules inst.rules = true) :
    FSHTank.fishForMetadata tank item [] =
      some { id := inst.id, name := inst.name,
             url := lastStringUrlAssignment inst.rules,
             instanceUsage := some inst.usage } := by
  unfold FSHTank.fishForMetadata
  rw [hfish]
  simp only [expandInsertRules_id tank inst.rules hins]
  rw [foldl_url_lastwins inst.rules none]
  cases h : lastStringUrlAssignment inst.rules <;> simp

/-- Witness for `C10_instance_metadata` at the concrete instance `M`
with two successive `url` assignments: the later one wins. -/
theorem C10_witness :
    FSHTank.fishForMetadata tankM "M" [] =
      some { id := "m", name := "M", url := some "http://u2",
             instanceUsage := some "Definition" } := by
  have h := C10_instance_metadata tankM "M" instM rfl rfl
  simpa using h

end Sushi
